import Mathlib

/-!
# utmp-cli: action resolution and command execution of `main` (src/main.c)

A shallow embedding of `main`.  The command line is given in the form `main`
consumes it: the successive values returned by `getopt` (with `optarg` where the
option takes one) and the arguments left at `argv + optind`.  The probe driver,
the platform header and the C library are collaborators; their results are
supplied by the records `Host` and `Driver`.  A run yields the value returned by
`main` together with the ordered list of observable events (driver calls, the
one-second wait, and what is written to the two output streams).
-/

namespace Utmp

/-- The anonymous enum of main.c, lines 18-23. -/
inductive Action where
  | HELP
  | ACQUIRE_TEMP
  | READ_ROM
  | SET
  deriving DecidableEq, Repr

/-- The two values `hex_format` can point to (line 27). -/
inductive HexFormat where
  | hex_upper
  | hex_lower
  deriving DecidableEq, Repr

/-- One value returned by `getopt(argc, argv, "fhiIjp:qRrs:")`, with `optarg`
for the two options that take an argument.  `unknown` is the return value '?'. -/
inductive Opt where
  | f
  | i
  | I
  | j
  | h
  | p (optarg : String)
  | q
  | R
  | r
  | s (optarg : String)
  | unknown
  deriving DecidableEq, Repr

/-- The local variables of `main` that carry the parsed options, with the
initial values of lines 29-44 (`serial_port` and `hex_format` start as NULL). -/
structure Vars where
  units : Char := 'C'
  serial_port : Option String := none
  json_mode : Int := 0
  psuedo_iso_8601_mode : Int := 0
  verbose : Int := 1
  action : Action := Action.ACQUIRE_TEMP
  precision : Int := 12
  hex_format : Option HexFormat := none
  deriving DecidableEq, Repr

/-- What the platform header and the C library contribute to a run. -/
structure Host where
  /-- Whether the macro SUPPORT_OPT_I is defined (lines 10-14). -/
  SUPPORT_OPT_I : Bool
  /-- The macro DEFAULT_SERIAL_PORT of platform.h. -/
  DEFAULT_SERIAL_PORT : String
  /-- The macro DS18X20_ROM_SIZE of usbtemp.h. -/
  DS18X20_ROM_SIZE : Nat
  /-- The int stored by `strtol(optarg, NULL, 10)`. -/
  strtol : String → Int
  /-- The text strftime writes for the local form "%b %d %H:%M:%S". -/
  time_local : String
  /-- The text strftime writes for the UTC form "%Y-%m-%dT%H:%M:%SZ". -/
  time_utc : String
  /-- The text strftime writes for the UTC form "%FT%T%Z". -/
  time_utc_ext : String
  /-- The text printf writes for a float under "%.2f". -/
  fmt_2f : ℚ → String

/-- The outcomes of the probe driver during one run. -/
structure Driver where
  /-- The value of `is_fd_valid(DS18B20_open(port))`. -/
  is_fd_valid : String → Bool
  /-- The return value of `DS18B20_measure`. -/
  measure : Int
  /-- The return value of `DS18B20_acquire`. -/
  acquire : Int
  /-- The reading `DS18B20_acquire` stores: the value of the C float, as a rational. -/
  temperature : ℚ
  /-- The return value of `DS18B20_rom`. -/
  rom : Int
  /-- The byte `DS18B20_rom` stores at index i of the buffer. -/
  rom_bytes : Nat → Nat
  /-- The return value of `DS18B20_setprecision` for a given precision. -/
  setprecision : Int → Int
  /-- The text of `DS18B20_errmsg()` at each place main prints it:
  0 after open, 1 after measure, 2 after acquire, 3 after rom. -/
  errmsg : Nat → String

/-- The calls main makes on a probe handle or to obtain one. -/
inductive Call where
  | DS18B20_open (port : String)
  | DS18B20_measure
  | DS18B20_acquire
  | DS18B20_rom
  | DS18B20_setprecision (precision : Int)
  | DS18B20_close
  deriving DecidableEq, Repr

/-- The printf statements of main that write to standard output. -/
inductive Stmt where
  | banner
  | help
  | port
  | waiting
  | temperature
  | rom
  deriving DecidableEq, Repr

/-- An observable step of a run. -/
inductive Event where
  | call (c : Call)
  | wait_1s
  | stdout (stmt : Stmt) (text : String)
  | stderr (text : String)
  deriving DecidableEq, Repr

/-- The value returned by `main` and the events of the run, in order. -/
structure Result where
  status : Int
  trace : List Event
  deriving DecidableEq, Repr

/-- The body of the `switch (c)` of lines 47-81 for one option; `none` is the
`return -1` of case '?'. -/
def optCase (host : Host) (v : Vars) : Opt → Option Vars
  | Opt.f => some { v with units := 'F' }
  | Opt.i => some { v with psuedo_iso_8601_mode := 1 }
  | Opt.I => some { v with psuedo_iso_8601_mode := 2 }
  | Opt.j => some { v with json_mode := 1 }
  | Opt.h => some { v with action := Action.HELP }
  | Opt.p optarg => some { v with action := Action.SET, precision := host.strtol optarg }
  | Opt.q => some { v with verbose := 0 }
  | Opt.R => some { v with hex_format := some HexFormat.hex_upper }
  | Opt.r => some { v with hex_format := some HexFormat.hex_lower }
  | Opt.s optarg => some { v with serial_port := some optarg }
  | Opt.unknown => none

/-- The `while` loop of lines 46-82 over the values getopt returns. -/
def getoptLoop (host : Host) : Vars → List Opt → Option Vars
  | v, [] => some v
  | v, c :: cs =>
    match optCase host v c with
    | none => none
    | some w => getoptLoop host w cs

/-- Lines 84-95: the positional port and the two action overrides that follow
the option loop. -/
def afterLoop (v : Vars) (rest : List String) : Vars :=
  let v1 := match rest with
    | [] => v
    | a :: _ => { v with serial_port := some a }
  let v2 := if v1.units = 'F' then { v1 with action := Action.ACQUIRE_TEMP } else v1
  if v2.hex_format ≠ none then { v2 with action := Action.READ_ROM } else v2

/-- Lines 46-95: the variables main holds once the action is settled, or `none`
when the loop left main with -1. -/
def resolve (host : Host) (opts : List Opt) (rest : List String) : Option Vars :=
  match getoptLoop host {} opts with
  | none => none
  | some v => some (afterLoop v rest)

/-- The banner of line 110. -/
def bannerText : String :=
  "USB Thermometer CLI v1.07 Copyright 2024 usbtemp.com et al. Licensed under MIT licence.\n"

/-- The option summary of lines 114-120, one event per printf. -/
def helpEvents : List Event :=
  [ Event.stdout Stmt.help "\t-f\tDisplay temperature using the Fahrenheit scale\n",
    Event.stdout Stmt.help "\t-i\tFormat date as UTC ISO 8601\n",
    Event.stdout Stmt.help "\t-j\tFormat date and temperature as JSON\n",
    Event.stdout Stmt.help "\t-p\tSet probe precision \x7b9,10,11,12\x7d\n",
    Event.stdout Stmt.help "\t-q\tQuiet mode\n",
    Event.stdout Stmt.help
      "\t-r\tGet probe serial number (ROM) in hexadecimal, or -R in uppercase hexadecimal\n",
    Event.stdout Stmt.help "\t-s\tSet serial port\n" ]

/-- One hexadecimal digit, in the case the format asks for. -/
def hexDigit (fmt : HexFormat) (d : Nat) : Char :=
  if d < 10 then Char.ofNat (48 + d)
  else match fmt with
    | HexFormat.hex_upper => Char.ofNat (55 + d)
    | HexFormat.hex_lower => Char.ofNat (87 + d)

/-- The text of `printf("%02X", b)` or `printf("%02x", b)` for an unsigned char. -/
def printf_hex (fmt : HexFormat) (b : Nat) : String :=
  String.mk [hexDigit fmt (b % 256 / 16), hexDigit fmt (b % 16)]

/-- Lines 194-198: the prefix, one printf per ROM byte, and the newline.  The
READ_ROM case is only entered with `hex_format` set (line 92); a NULL format
contributes no text here. -/
def romEvents (host : Host) (drv : Driver) (hex_format : Option HexFormat) : List Event :=
  [Event.stdout Stmt.rom "ROM: "]
    ++ (List.range host.DS18X20_ROM_SIZE).map (fun i =>
        Event.stdout Stmt.rom
          (match hex_format with
           | some fmt => printf_hex fmt (drv.rom_bytes i)
           | none => ""))
    ++ [Event.stdout Stmt.rom "\n"]

/-- Lines 161-174: the content of `timebuf`.  With mode 2 and no SUPPORT_OPT_I the
buffer is left unwritten; main has returned at line 127 before that can happen. -/
def timebuf (host : Host) (v : Vars) : String :=
  if v.psuedo_iso_8601_mode > 0 then
    if v.psuedo_iso_8601_mode = 1 then host.time_utc
    else if host.SUPPORT_OPT_I then host.time_utc_ext else ""
  else host.time_local

/-- The integer nearest to a rational, a tie going to the even one. -/
def roundHalfEven (y : ℚ) : ℤ :=
  if 2 * (y - ⌊y⌋) < 1 then ⌊y⌋
  else if 1 < 2 * (y - ⌊y⌋) then ⌊y⌋ + 1
  else if ⌊y⌋ % 2 = 0 then ⌊y⌋ else ⌊y⌋ + 1

/-- The exponent of the spacing of float values around x: 24 significant bits
below the leading power of two, and the fixed spacing of the subnormal range
under 2^-126. -/
def ulpExp (x : ℚ) : ℤ :=
  max (Int.log 2 |x|) (-126) - 23

/-- The value of a real result as a C float stores it, for a float in the IEEE
754 binary32 format under round-to-nearest, ties-to-even.  Overflow to infinity
(magnitudes from 2^128 on) is outside the model. -/
def roundFloat (x : ℚ) : ℚ :=
  (roundHalfEven (x / (2 : ℚ) ^ ulpExp x) : ℚ) * (2 : ℚ) ^ ulpExp x

/-- Lines 176-178: the value printed for a reading.  `temperature` is a float,
so the constants 9, 5 and 32 are converted to float and each of the three
operations of line 177 yields a float. -/
def convert (units : Char) (temperature : ℚ) : ℚ :=
  if units = 'F' then roundFloat (roundFloat (roundFloat (9 * temperature) / 5) + 32)
  else temperature

/-- Lines 180-184: the line printed for a reading. -/
def temperatureText (host : Host) (v : Vars) (temperature : ℚ) : String :=
  if v.json_mode > 0 then
    "\x7b \"time\": \"" ++ timebuf host v ++ "\", \"temp_"
      ++ String.singleton (Char.ofNat (v.units.toNat + 32)) ++ "\": "
      ++ host.fmt_2f temperature ++ " \x7d\n"
  else
    timebuf host v ++ " Sensor " ++ String.singleton v.units ++ ": "
      ++ host.fmt_2f temperature ++ "\n"

/-- Lines 146-186: the ACQUIRE_TEMP case; the pair is `rv` and the events. -/
def acquireCase (host : Host) (drv : Driver) (v : Vars) : Int × List Event :=
  if drv.measure < 0 then
    (1, [Event.call Call.DS18B20_measure, Event.stderr (drv.errmsg 1 ++ "\n")])
  else
    let pre := [Event.call Call.DS18B20_measure]
      ++ (if v.verbose ≠ 0 then [Event.stdout Stmt.waiting "Waiting for response ...\n"] else [])
      ++ [Event.wait_1s, Event.call Call.DS18B20_acquire]
    if drv.acquire < 0 then
      (1, pre ++ [Event.stderr (drv.errmsg 2 ++ "\n")])
    else
      (0, pre ++ [Event.stdout Stmt.temperature
        (temperatureText host v (convert v.units drv.temperature))])

/-- Lines 188-199: the READ_ROM case. -/
def romCase (host : Host) (drv : Driver) (v : Vars) : Int × List Event :=
  if drv.rom < 0 then
    (1, [Event.call Call.DS18B20_rom, Event.stderr (drv.errmsg 3 ++ "\n")])
  else
    (0, Event.call Call.DS18B20_rom :: romEvents host drv v.hex_format)

/-- Lines 201-210: the SET case. -/
def setCase (drv : Driver) (v : Vars) : Int × List Event :=
  if v.precision < 9 ∨ 12 < v.precision then
    (1, if v.verbose = 1 then [Event.stderr "Probe precision out of range!\n"] else [])
  else
    (drv.setprecision v.precision, [Event.call (Call.DS18B20_setprecision v.precision)])

/-- The `switch (action)` of lines 144-212; HELP has no case and falls through
with `rv` still 0. -/
def switchAction (host : Host) (drv : Driver) (v : Vars) : Int × List Event :=
  match v.action with
  | Action.ACQUIRE_TEMP => acquireCase host drv v
  | Action.READ_ROM => romCase host drv v
  | Action.SET => setCase drv v
  | Action.HELP => (0, [])

/-- Lines 131-215: port selection, open, dispatch and close; `pre` is what the
run has printed so far. -/
def deviceRun (host : Host) (drv : Driver) (v : Vars) (pre : List Event) : Result :=
  let serial_port := match v.serial_port with
    | some s => s
    | none => host.DEFAULT_SERIAL_PORT
  let t1 := pre
    ++ (if v.verbose ≠ 0 then
          [Event.stdout Stmt.port ("Using serial port: " ++ serial_port ++ "\n")]
        else [])
    ++ [Event.call (Call.DS18B20_open serial_port)]
  if drv.is_fd_valid serial_port = false then
    { status := 1, trace := t1 ++ [Event.stderr (drv.errmsg 0 ++ "\n")] }
  else
    let r := switchAction host drv v
    { status := r.1, trace := t1 ++ r.2 ++ [Event.call Call.DS18B20_close] }

/-- Lines 97-215: everything main does once the action is settled.  `verbose1`
and `verbose2` are the values of `verbose` after lines 98 and 106. -/
def execute (host : Host) (drv : Driver) (v0 : Vars) : Result :=
  let verbose1 := if v0.json_mode > 0 then 0 else v0.verbose
  if v0.json_mode > 0 ∧ v0.action ≠ Action.ACQUIRE_TEMP then
    { status := 1,
      trace := [Event.stderr "JSON output only supported when displaying temperature.\n"] }
  else
    let verbose2 := if v0.action = Action.HELP then 1 else verbose1
    let t0 := if verbose2 ≠ 0 then [Event.stdout Stmt.banner bannerText] else []
    if v0.action = Action.HELP then
      { status := 0, trace := t0 ++ helpEvents }
    else if host.SUPPORT_OPT_I = false ∧ v0.psuedo_iso_8601_mode > 1 then
      { status := -2, trace := t0 ++ [Event.stderr "Option -I not supported!\n"] }
    else
      deviceRun host drv { v0 with verbose := verbose2 } t0

/-- The function `main` of main.c.  The diagnostic getopt itself writes for an
option it does not know is not an event of main and is not recorded. -/
def main (host : Host) (drv : Driver) (opts : List Opt) (rest : List String) : Result :=
  match resolve host opts rest with
  | none => { status := -1, trace := [] }
  | some v => execute host drv v

/-- The driver call an event stands for, if it is one. -/
def Event.toCall : Event → Option Call
  | Event.call c => some c
  | _ => none

/-- The driver calls of a trace, in order. -/
def driverCalls (t : List Event) : List Call :=
  t.filterMap Event.toCall

/-- Whether an event is a driver call or the one-second wait. -/
def Event.isStep : Event → Bool
  | Event.call _ => true
  | Event.wait_1s => true
  | _ => false

/-- The driver calls and waits of a trace, in order. -/
def deviceSteps (t : List Event) : List Event :=
  t.filter Event.isStep

/-- The text an event wrote to standard output from the given printf statement. -/
def Event.textOf (stmt : Stmt) : Event → Option String
  | Event.stdout s text => if s = stmt then some text else none
  | _ => none

/-- The texts a given printf statement wrote to standard output, in order. -/
def printed (stmt : Stmt) (t : List Event) : List String :=
  t.filterMap (Event.textOf stmt)

/-- Whether the option is a -p. -/
def Opt.isP : Opt → Bool
  | Opt.p _ => true
  | _ => false

/-- Whether the option is -r or -R. -/
def Opt.isHex : Opt → Bool
  | Opt.r => true
  | Opt.R => true
  | _ => false

/-- The override sequence of section 4.1 of the specification, in its words:
the default is AcquireTemperature; a precision flag makes it SetPrecision; a
hex-case flag makes it ReadRom; Fahrenheit forces AcquireTemperature; help
overrides all of these.  Only the set of flags present matters. -/
def specAction (opts : List Opt) : Action :=
  let a1 := Action.ACQUIRE_TEMP
  let a2 := if opts.any Opt.isP then Action.SET else a1
  let a3 := if opts.any Opt.isHex then Action.READ_ROM else a2
  let a4 := if Opt.f ∈ opts then Action.ACQUIRE_TEMP else a3
  if Opt.h ∈ opts then Action.HELP else a4

/-- The action left by the -h and -p options of a sequence read in order, each
overwriting the one before, starting from `a`. -/
def lastHelpOrSet (a : Action) : List Opt → Action
  | [] => a
  | Opt.h :: cs => lastHelpOrSet Action.HELP cs
  | Opt.p _ :: cs => lastHelpOrSet Action.SET cs
  | _ :: cs => lastHelpOrSet a cs

/-- The order in which main applies its overrides: the -h and -p options in
command-line order, then Fahrenheit, then the hex-case flags. -/
def orderedAction (opts : List Opt) : Action :=
  if opts.any Opt.isHex then Action.READ_ROM
  else if Opt.f ∈ opts then Action.ACQUIRE_TEMP
  else lastHelpOrSet Action.ACQUIRE_TEMP opts

/-- The guards of lines 99, 113 and 125 all let the run through to line 131. -/
def reachesOpen (host : Host) (v : Vars) : Prop :=
  ¬ (v.json_mode > 0 ∧ v.action ≠ Action.ACQUIRE_TEMP) ∧ v.action ≠ Action.HELP ∧
    ¬ (host.SUPPORT_OPT_I = false ∧ v.psuedo_iso_8601_mode > 1)

instance (host : Host) (v : Vars) : Decidable (reachesOpen host v) := by
  unfold reachesOpen
  infer_instance

/-- The value of `verbose` from line 107 on. -/
def verboseOf (v : Vars) : Int :=
  if v.action = Action.HELP then 1 else if v.json_mode > 0 then 0 else v.verbose

/-- The port main passes to DS18B20_open (lines 131-133). -/
def portOf (host : Host) (v : Vars) : String :=
  match v.serial_port with
  | some s => s
  | none => host.DEFAULT_SERIAL_PORT

/-- A decimal reading of an optional minus sign followed by digits, used as the
strtol of the sample hosts. -/
def sampleStrtol (s : String) : Int :=
  match s.data with
  | '-' :: ds => - Int.ofNat (ds.foldl (fun n c => 10 * n + (c.toNat - 48)) 0)
  | ds => Int.ofNat (ds.foldl (fun n c => 10 * n + (c.toNat - 48)) 0)

/-- A host for concrete runs: SUPPORT_OPT_I defined, eight ROM bytes. -/
def sampleHost : Host where
  SUPPORT_OPT_I := true
  DEFAULT_SERIAL_PORT := "/dev/ttyUSB0"
  DS18X20_ROM_SIZE := 8
  strtol := sampleStrtol
  time_local := "Jan 01 00:00:00"
  time_utc := "2024-01-01T00:00:00Z"
  time_utc_ext := "2024-01-01T00:00:00GMT"
  fmt_2f := fun _ => "21.50"

/-- The same host without SUPPORT_OPT_I. -/
def plainHost : Host :=
  { sampleHost with SUPPORT_OPT_I := false }

/-- A driver whose every call succeeds. -/
def goodDriver : Driver where
  is_fd_valid := fun _ => true
  measure := 0
  acquire := 0
  temperature := 43 / 2
  rom := 0
  rom_bytes := fun i => [40, 10, 255, 1, 2, 3, 4, 5].getD i 0
  setprecision := fun _ => 0
  errmsg := fun _ => "driver error"

/-- A driver that cannot open the port. -/
def noOpenDriver : Driver :=
  { goodDriver with is_fd_valid := fun _ => false }

/-- The text an event wrote to standard output, whatever the statement. -/
def Event.outText : Event → Option String
  | Event.stdout _ text => some text
  | _ => none

/-- Everything a run wrote to standard output, one entry per printf, in order. -/
def stdoutTexts (t : List Event) : List String :=
  t.filterMap Event.outText

/-- The text an event wrote to the error stream. -/
def Event.errText : Event → Option String
  | Event.stderr text => some text
  | _ => none

/-- Everything a run wrote to the error stream, one entry per fprintf, in order. -/
def stderrTexts (t : List Event) : List String :=
  t.filterMap Event.errText

/-- Whether the option is -i or -I. -/
def Opt.isTime : Opt → Bool
  | Opt.i => true
  | Opt.I => true
  | _ => false

/-- Whether the option is a -s. -/
def Opt.isS : Opt → Bool
  | Opt.s _ => true
  | _ => false

/-- Whether the option is -h or a -p. -/
def Opt.isHelpOrP : Opt → Bool
  | Opt.h => true
  | Opt.p _ => true
  | _ => false

/-- The sixteen hexadecimal digits in the case a hex-case flag selects: lower
case for -r, upper case for -R. -/
def hexDigits : HexFormat → List Char
  | HexFormat.hex_lower => "0123456789abcdef".data
  | HexFormat.hex_upper => "0123456789ABCDEF".data

/-- The ROM rendering of one byte in the words of the specification: two hex
digits, zero-padded, the high nibble first. -/
def hexPair (fmt : HexFormat) (b : Nat) : String :=
  String.mk [(hexDigits fmt).getD (b / 16) '0', (hexDigits fmt).getD (b % 16) '0']

/-- The hex-case flag of a format: -r for lower case, -R for upper case. -/
def hexFlag : HexFormat → Opt
  | HexFormat.hex_lower => Opt.r
  | HexFormat.hex_upper => Opt.R

/-- The action of whichever of -h and -p comes last in the sequence, and
AcquireTemperature when there is neither. -/
def lastHelpOrPrecision (opts : List Opt) : Action :=
  match (opts.filter Opt.isHelpOrP).getLast? with
  | some Opt.h => Action.HELP
  | some (Opt.p _) => Action.SET
  | _ => Action.ACQUIRE_TEMP

/-- The action main dispatches on, read off the flags: ReadRom with a hex-case
flag, else AcquireTemperature with -f, else the last of -h and -p. -/
def dispatchedAction (opts : List Opt) : Action :=
  if opts.any Opt.isHex then Action.READ_ROM
  else if Opt.f ∈ opts then Action.ACQUIRE_TEMP
  else lastHelpOrPrecision opts

/-- The formula of the specification, F = 9*C/5 + 32, in exact arithmetic. -/
def exactFahrenheit (c : ℚ) : ℚ :=
  9 * c / 5 + 32

/-- The values a binary32 float can hold: a significand of at most 24 bits times
a power of two within the exponent range of the format. -/
def isBinary32 (x : ℚ) : Prop :=
  ∃ m e : ℤ, |m| < 2 ^ 24 ∧ -149 ≤ e ∧ e ≤ 104 ∧ x = (m : ℚ) * (2 : ℚ) ^ e

/-- The sample host with a ROM of three bytes. -/
def threeByteHost : Host :=
  { sampleHost with DS18X20_ROM_SIZE := 3 }

end Utmp

namespace Utmp

/-! ## The option loop -/

theorem getoptLoop_cons (host : Host) (v : Vars) (c : Opt) (cs : List Opt) :
    getoptLoop host v (c :: cs) = (optCase host v c).bind (fun w => getoptLoop host w cs) := by
  simp only [getoptLoop]
  cases optCase host v c <;> rfl

theorem getoptLoop_ne_none (host : Host) :
    ∀ (opts : List Opt) (v : Vars), Opt.unknown ∉ opts → ∃ w, getoptLoop host v opts = some w := by
  intro opts
  induction opts with
  | nil => intro v _; exact ⟨v, rfl⟩
  | cons c cs ih =>
    intro v hc
    have h1 : c ≠ Opt.unknown := fun e => hc (by simp [e])
    have h2 : Opt.unknown ∉ cs := fun e => hc (by simp [e])
    cases c <;> first
      | exact absurd rfl h1
      | (simp only [getoptLoop_cons, optCase, Option.some_bind]; exact ih _ h2)

theorem getoptLoop_unknown (host : Host) :
    ∀ (opts : List Opt) (v : Vars), Opt.unknown ∈ opts → getoptLoop host v opts = none := by
  intro opts
  induction opts with
  | nil => intro v h; simp at h
  | cons c cs ih =>
    intro v hc
    cases c <;> first
      | (simp [getoptLoop_cons, optCase]; done)
      | (simp only [getoptLoop_cons, optCase, Option.some_bind]
         exact ih _ (by simpa using hc))

/-- What the loop leaves in the variables that decide the action and the early
exits, in terms of the options read. -/
theorem getoptLoop_vars (host : Host) :
    ∀ (opts : List Opt) (v w : Vars), getoptLoop host v opts = some w →
      w.units = (if Opt.f ∈ opts then 'F' else v.units) ∧
      ((w.hex_format = none) ↔ (v.hex_format = none ∧ opts.any Opt.isHex = false)) ∧
      w.json_mode = (if Opt.j ∈ opts then 1 else v.json_mode) ∧
      w.verbose = (if Opt.q ∈ opts then 0 else v.verbose) ∧
      w.action = lastHelpOrSet v.action opts := by
  intro opts
  induction opts with
  | nil =>
    intro v w h
    simp only [getoptLoop, Option.some.injEq] at h
    subst h
    simp [lastHelpOrSet]
  | cons c cs ih =>
    intro v w h
    cases c <;> simp only [getoptLoop_cons, optCase, Option.some_bind, Option.none_bind] at h
    all_goals first
      | (exact absurd h (by simp))
      | (obtain ⟨h1, h2, h3, h4, h5⟩ := ih _ _ h
         clear h ih
         refine ⟨?_, ?_, ?_, ?_, ?_⟩
         · rw [h1]; simp
         · rw [h2]; simp [Opt.isHex]
         · rw [h3]; simp
         · rw [h4]; simp
         · rw [h5]; simp [lastHelpOrSet])

theorem lastHelpOrSet_none (opts : List Opt) :
    ∀ a : Action, Opt.h ∉ opts → opts.any Opt.isP = false → lastHelpOrSet a opts = a := by
  induction opts with
  | nil => intro a _ _; rfl
  | cons c cs ih =>
    intro a hh hp
    have hh2 : Opt.h ∉ cs := fun e => hh (by simp [e])
    cases c <;> simp [Opt.isP] at hh hp <;> simp only [lastHelpOrSet] <;>
      exact ih _ hh2 (by simpa using hp)

theorem lastHelpOrSet_set (opts : List Opt) :
    ∀ a : Action, Opt.h ∉ opts → opts.any Opt.isP = true → lastHelpOrSet a opts = Action.SET := by
  induction opts with
  | nil => intro a _ hp; simp at hp
  | cons c cs ih =>
    intro a hh hp
    have hh2 : Opt.h ∉ cs := fun e => hh (by simp [e])
    cases c
    case h => simp at hh
    case p x =>
      simp only [lastHelpOrSet]
      by_cases hq : cs.any Opt.isP = true
      · exact ih _ hh2 hq
      · exact lastHelpOrSet_none cs _ hh2 (by simpa using hq)
    all_goals
      simp only [lastHelpOrSet]
      exact ih _ hh2 (by simpa [Opt.isP] using hp)

theorem lastHelpOrSet_help (opts : List Opt) :
    ∀ a : Action, Opt.h ∈ opts → opts.any Opt.isP = false → lastHelpOrSet a opts = Action.HELP := by
  induction opts with
  | nil => intro a hh _; simp at hh
  | cons c cs ih =>
    intro a hh hp
    cases c
    case p x => simp [Opt.isP] at hp
    case h =>
      simp only [lastHelpOrSet]
      by_cases hq : Opt.h ∈ cs
      · exact ih _ hq (by simpa [Opt.isP] using hp)
      · exact lastHelpOrSet_none cs _ hq (by simpa [Opt.isP] using hp)
    all_goals
      simp only [lastHelpOrSet]
      exact ih _ (by simpa using hh) (by simpa [Opt.isP] using hp)

theorem afterLoop_fields (v : Vars) (rest : List String) :
    (afterLoop v rest).units = v.units ∧
    (afterLoop v rest).hex_format = v.hex_format ∧
    (afterLoop v rest).json_mode = v.json_mode ∧
    (afterLoop v rest).verbose = v.verbose ∧
    (afterLoop v rest).precision = v.precision ∧
    (afterLoop v rest).psuedo_iso_8601_mode = v.psuedo_iso_8601_mode ∧
    (afterLoop v rest).serial_port = (match rest with
      | [] => v.serial_port
      | a :: _ => some a) ∧
    (afterLoop v rest).action =
      (if v.hex_format ≠ none then Action.READ_ROM
       else if v.units = 'F' then Action.ACQUIRE_TEMP else v.action) := by
  unfold afterLoop
  cases rest <;> by_cases h1 : v.units = 'F' <;> by_cases h2 : v.hex_format = none <;>
    simp [h1, h2]

/-- The variables main holds at line 96, in terms of the options read. -/
theorem resolve_vars (host : Host) (opts : List Opt) (rest : List String) (v : Vars)
    (h : resolve host opts rest = some v) :
    v.action = orderedAction opts ∧
    v.units = (if Opt.f ∈ opts then 'F' else 'C') ∧
    ((v.hex_format = none) ↔ opts.any Opt.isHex = false) ∧
    v.json_mode = (if Opt.j ∈ opts then 1 else 0) ∧
    v.verbose = (if Opt.q ∈ opts then 0 else 1) := by
  unfold resolve at h
  cases hl : getoptLoop host {} opts with
  | none => rw [hl] at h; exact absurd h (by simp)
  | some w =>
    rw [hl] at h
    simp only [Option.some.injEq] at h
    obtain ⟨h1, h2, h3, h4, h5⟩ := getoptLoop_vars host opts _ _ hl
    simp only [true_and] at h2
    obtain ⟨a1, a2, a3, a4, -, -, -, a8⟩ := afterLoop_fields w rest
    subst h
    refine ⟨?_, ?_, ?_, ?_, ?_⟩
    · rw [a8]
      unfold orderedAction
      by_cases hx : opts.any Opt.isHex = true
      · have : w.hex_format ≠ none := fun e => by rw [h2.mp e] at hx; exact absurd hx (by simp)
        simp [this, hx]
      · have hx2 : opts.any Opt.isHex = false := by simpa using hx
        have : w.hex_format = none := h2.mpr hx2
        by_cases hf : Opt.f ∈ opts
        · simp [this, h1, hf, hx2]
        · simp [this, h1, hf, hx2, h5]
    · rw [a1, h1]
    · rw [a2, h2]
    · rw [a3, h3]
    · rw [a4, h4]

theorem resolve_accepts (host : Host) (opts : List Opt) (rest : List String)
    (h : Opt.unknown ∉ opts) : ∃ v, resolve host opts rest = some v := by
  obtain ⟨w, hw⟩ := getoptLoop_ne_none host opts {} h
  exact ⟨afterLoop w rest, by simp [resolve, hw]⟩

theorem resolve_rejects (host : Host) (opts : List Opt) (rest : List String)
    (h : Opt.unknown ∈ opts) : resolve host opts rest = none := by
  simp [resolve, getoptLoop_unknown host opts {} h]

/-- Where the order main applies agrees with the order of section 4.1. -/
theorem orderedAction_eq_specAction_iff (opts : List Opt) :
    orderedAction opts = specAction opts ↔
      (if Opt.h ∈ opts then
        opts.any Opt.isHex = false ∧ Opt.f ∉ opts ∧
          lastHelpOrSet Action.ACQUIRE_TEMP opts = Action.HELP
       else ¬ (opts.any Opt.isHex = true ∧ Opt.f ∈ opts)) := by
  unfold orderedAction specAction
  by_cases hh : Opt.h ∈ opts
  · by_cases hx : opts.any Opt.isHex = true
    · simp [hh, hx]
    · have hx2 : opts.any Opt.isHex = false := by simpa using hx
      by_cases hf : Opt.f ∈ opts
      · simp [hh, hx2, hf]
      · simp [hh, hx2, hf]
  · by_cases hx : opts.any Opt.isHex = true
    · by_cases hf : Opt.f ∈ opts
      · simp [hh, hx, hf]
      · simp [hh, hx, hf]
    · have hx2 : opts.any Opt.isHex = false := by simpa using hx
      by_cases hf : Opt.f ∈ opts
      · simp [hh, hx2, hf]
      · by_cases hp : opts.any Opt.isP = true
        · rw [lastHelpOrSet_set opts _ hh hp]; simp [hh, hx2, hf, hp]
        · have hp2 : opts.any Opt.isP = false := by simpa using hp
          rw [lastHelpOrSet_none opts _ hh hp2]; simp [hh, hx2, hf, hp2]

theorem lastHelpOrSet_append (pre post : List Opt) :
    ∀ a : Action, lastHelpOrSet a (pre ++ post) = lastHelpOrSet (lastHelpOrSet a pre) post := by
  induction pre with
  | nil => intro a; rfl
  | cons c cs ih =>
    intro a
    cases c <;> simp only [List.cons_append, lastHelpOrSet] <;> exact ih _

theorem lastHelpOrSet_help_seed (post : List Opt) (hp : post.any Opt.isP = false) :
    lastHelpOrSet Action.HELP post = Action.HELP := by
  by_cases hh : Opt.h ∈ post
  · exact lastHelpOrSet_help post _ hh hp
  · exact lastHelpOrSet_none post _ hh hp

theorem any_perm (q : Opt → Bool) (l l' : List Opt) (hperm : l.Perm l') :
    l.any q = l'.any q := by
  rw [Bool.eq_iff_iff]
  simp only [List.any_eq_true]
  constructor
  · rintro ⟨x, hx, hq⟩; exact ⟨x, hperm.mem_iff.mp hx, hq⟩
  · rintro ⟨x, hx, hq⟩; exact ⟨x, hperm.mem_iff.mpr hx, hq⟩

theorem orderedAction_perm (opts opts' : List Opt) (hperm : opts.Perm opts')
    (hc : opts.any Opt.isHex = true ∨ Opt.f ∈ opts ∨
      ¬ (Opt.h ∈ opts ∧ opts.any Opt.isP = true)) :
    orderedAction opts = orderedAction opts' := by
  unfold orderedAction
  rw [← any_perm Opt.isHex opts opts' hperm]
  by_cases hx : opts.any Opt.isHex = true
  · simp [hx]
  · have hx2 : opts.any Opt.isHex = false := by simpa using hx
    have hfi : Opt.f ∈ opts ↔ Opt.f ∈ opts' := hperm.mem_iff
    by_cases hf : Opt.f ∈ opts
    · simp [hx2, hf, hfi.mp hf]
    · have hf' : Opt.f ∉ opts' := fun e => hf (hfi.mpr e)
      simp only [hx2, hf, hf', if_false, Bool.false_eq_true]
      have hhp : ¬ (Opt.h ∈ opts ∧ opts.any Opt.isP = true) := by
        rcases hc with h | h | h
        · exact absurd h hx
        · exact absurd h hf
        · exact h
      have hpi := any_perm Opt.isP opts opts' hperm
      have hhi : Opt.h ∈ opts ↔ Opt.h ∈ opts' := hperm.mem_iff
      by_cases hh : Opt.h ∈ opts
      · have hp : opts.any Opt.isP = false := by
          cases hq : opts.any Opt.isP
          · rfl
          · exact absurd ⟨hh, hq⟩ hhp
        rw [lastHelpOrSet_help opts _ hh hp,
          lastHelpOrSet_help opts' _ (hhi.mp hh) (by rw [← hpi]; exact hp)]
      · have hh' : Opt.h ∉ opts' := fun e => hh (hhi.mpr e)
        cases hq : opts.any Opt.isP
        · rw [lastHelpOrSet_none opts _ hh hq,
            lastHelpOrSet_none opts' _ hh' (by rw [← hpi]; exact hq)]
        · rw [lastHelpOrSet_set opts _ hh hq,
            lastHelpOrSet_set opts' _ hh' (by rw [← hpi]; exact hq)]

theorem getoptLoop_append (host : Host) (xs ys : List Opt) :
    ∀ v : Vars, getoptLoop host v (xs ++ ys) =
      (getoptLoop host v xs).bind (fun w => getoptLoop host w ys) := by
  induction xs with
  | nil => intro v; rfl
  | cons c cs ih =>
    intro v
    rw [List.cons_append, getoptLoop_cons, getoptLoop_cons]
    cases optCase host v c with
    | none => rfl
    | some w => simp only [Option.some_bind]; exact ih w

/-- Options that do not touch a variable leave it as it was. -/
theorem getoptLoop_keeps (host : Host) :
    ∀ (l : List Opt) (a b : Vars), getoptLoop host a l = some b →
      (l.any Opt.isHex = false → b.hex_format = a.hex_format) ∧
      (l.any Opt.isTime = false → b.psuedo_iso_8601_mode = a.psuedo_iso_8601_mode) ∧
      (l.any Opt.isS = false → b.serial_port = a.serial_port) := by
  intro l
  induction l with
  | nil =>
    intro a b e
    simp only [getoptLoop, Option.some.injEq] at e
    subst e
    exact ⟨fun _ => rfl, fun _ => rfl, fun _ => rfl⟩
  | cons c cs ih =>
    intro a b e
    cases c <;> simp only [getoptLoop_cons, optCase, Option.some_bind, Option.none_bind] at e
    all_goals first
      | (exact absurd e (by simp))
      | (obtain ⟨k1, k2, k3⟩ := ih _ _ e
         clear e ih
         refine ⟨fun h => ?_, fun h => ?_, fun h => ?_⟩
         all_goals first
           | (simp [Opt.isHex, Opt.isTime, Opt.isS] at h; done)
           | (rw [k1 (by simpa [Opt.isHex] using h)])
           | (rw [k2 (by simpa [Opt.isTime] using h)])
           | (rw [k3 (by simpa [Opt.isS] using h)]))

/-- The loop over a sequence split at one option. -/
theorem getoptLoop_split (host : Host) (pre post : List Opt) (c : Opt) (v w : Vars)
    (h : getoptLoop host v (pre ++ c :: post) = some w) :
    ∃ u u', getoptLoop host v pre = some u ∧ optCase host u c = some u' ∧
      getoptLoop host u' post = some w := by
  rw [getoptLoop_append] at h
  cases hu : getoptLoop host v pre with
  | none => rw [hu] at h; exact absurd h (by simp)
  | some u =>
    rw [hu, Option.some_bind, getoptLoop_cons] at h
    cases hc : optCase host u c with
    | none => rw [hc] at h; exact absurd h (by simp)
    | some u' =>
      rw [hc, Option.some_bind] at h
      exact ⟨u, u', rfl, hc, h⟩

theorem resolve_loop (host : Host) (opts : List Opt) (rest : List String) (v : Vars)
    (h : resolve host opts rest = some v) :
    ∃ w, getoptLoop host {} opts = some w ∧ v = afterLoop w rest := by
  unfold resolve at h
  cases hl : getoptLoop host {} opts with
  | none => rw [hl] at h; exact absurd h (by simp)
  | some w =>
    rw [hl] at h
    simp only [Option.some.injEq] at h
    exact ⟨w, rfl, h.symm⟩

/-- The format main holds is the one of the last hex-case flag. -/
theorem resolve_hex_format (host : Host) (pre post : List Opt) (fmt : HexFormat)
    (rest : List String) (v : Vars) (hp : post.any Opt.isHex = false)
    (h : resolve host (pre ++ hexFlag fmt :: post) rest = some v) :
    v.hex_format = some fmt := by
  obtain ⟨w, hl, hv⟩ := resolve_loop host _ rest v h
  obtain ⟨u, u', -, hc, hpost⟩ := getoptLoop_split host pre post _ _ _ hl
  rw [hv, (afterLoop_fields w rest).2.1, (getoptLoop_keeps host post u' w hpost).1 hp]
  cases fmt <;> simp only [hexFlag, optCase, Option.some.injEq] at hc <;> rw [← hc]

/-- The timestamp mode main holds is 2 when the last of -i and -I is -I. -/
theorem resolve_mode_extended (host : Host) (pre post : List Opt)
    (rest : List String) (v : Vars) (hp : post.any Opt.isTime = false)
    (h : resolve host (pre ++ Opt.I :: post) rest = some v) :
    v.psuedo_iso_8601_mode = 2 := by
  obtain ⟨w, hl, hv⟩ := resolve_loop host _ rest v h
  obtain ⟨u, u', -, hc, hpost⟩ := getoptLoop_split host pre post _ _ _ hl
  rw [hv, (afterLoop_fields w rest).2.2.2.2.2.1, (getoptLoop_keeps host post u' w hpost).2.1 hp]
  simp only [optCase, Option.some.injEq] at hc
  rw [← hc]

/-- The port main holds after line 86: the first argument left after the
options, else the argument of the last -s, else none. -/
theorem resolve_serial_port (host : Host) (opts : List Opt) (rest : List String) (v : Vars)
    (h : resolve host opts rest = some v) :
    (∀ a as, rest = a :: as → v.serial_port = some a) ∧
    (rest = [] → ∀ pre post x, opts = pre ++ Opt.s x :: post → post.any Opt.isS = false →
      v.serial_port = some x) ∧
    (rest = [] → opts.any Opt.isS = false → v.serial_port = none) := by
  obtain ⟨w, hl, hv⟩ := resolve_loop host _ rest v h
  have hf := (afterLoop_fields w rest).2.2.2.2.2.2.1
  refine ⟨?_, ?_, ?_⟩
  · intro a as hr
    rw [hv, hf, hr]
  · intro hr pre post x ho hp
    subst ho
    obtain ⟨u, u', -, hc, hpost⟩ := getoptLoop_split host pre post _ _ _ hl
    rw [hv, hf, hr]
    simp only []
    rw [(getoptLoop_keeps host post u' w hpost).2.2 hp]
    simp only [optCase, Option.some.injEq] at hc
    rw [← hc]
  · intro hr hp
    rw [hv, hf, hr]
    simp only []
    rw [(getoptLoop_keeps host opts _ w hl).2.2 hp]

/-- The recursion over -h and -p agrees with the last of them in the sequence. -/
theorem lastHelpOrSet_eq_last (opts : List Opt) :
    lastHelpOrSet Action.ACQUIRE_TEMP opts = lastHelpOrPrecision opts := by
  unfold lastHelpOrPrecision
  induction opts using List.reverseRecOn with
  | nil => rfl
  | append_singleton l c ih =>
    rw [lastHelpOrSet_append, List.filter_append, List.getLast?_append]
    cases c <;> simp [lastHelpOrSet, Opt.isHelpOrP, List.filter, ih]

/-! ## Execution (lines 97-215) -/

theorem main_of_resolve (host : Host) (drv : Driver) (opts : List Opt) (rest : List String)
    (v : Vars) (h : resolve host opts rest = some v) :
    main host drv opts rest = execute host drv v := by
  simp [main, h]

theorem main_rejected (host : Host) (drv : Driver) (opts : List Opt) (rest : List String)
    (h : resolve host opts rest = none) :
    main host drv opts rest = { status := -1, trace := [] } := by
  simp [main, h]

theorem driverCalls_append (a b : List Event) :
    driverCalls (a ++ b) = driverCalls a ++ driverCalls b := by
  simp [driverCalls]

theorem deviceSteps_append (a b : List Event) :
    deviceSteps (a ++ b) = deviceSteps a ++ deviceSteps b := by
  simp [deviceSteps]

theorem printed_append (stmt : Stmt) (a b : List Event) :
    printed stmt (a ++ b) = printed stmt a ++ printed stmt b := by
  simp [printed]

theorem driverCalls_romEvents (host : Host) (drv : Driver) (f : Option HexFormat) :
    driverCalls (romEvents host drv f) = [] := by
  simp [romEvents, driverCalls, List.filterMap_map, Event.toCall, List.filterMap_eq_nil_iff]

theorem deviceSteps_romEvents (host : Host) (drv : Driver) (f : Option HexFormat) :
    deviceSteps (romEvents host drv f) = [] := by
  simp [romEvents, deviceSteps, Event.isStep, List.filter_eq_nil_iff]

/-- The run past the three guards is the device run of lines 131-215. -/
theorem execute_reaching (host : Host) (drv : Driver) (v : Vars) (h : reachesOpen host v) :
    execute host drv v =
      deviceRun host drv { v with verbose := verboseOf v }
        (if verboseOf v ≠ 0 then [Event.stdout Stmt.banner bannerText] else []) := by
  obtain ⟨h1, h2, h3⟩ := h
  unfold execute verboseOf
  simp only [h2, if_false]
  rw [if_neg h1, if_neg h3]

/-- A run stopped by one of the three guards makes no driver call and no wait. -/
theorem execute_not_reaching (host : Host) (drv : Driver) (v : Vars)
    (h : ¬ reachesOpen host v) :
    deviceSteps (execute host drv v).trace = [] ∧ driverCalls (execute host drv v).trace = [] := by
  unfold execute
  by_cases h1 : v.json_mode > 0 ∧ v.action ≠ Action.ACQUIRE_TEMP
  · rw [if_pos h1]; simp [deviceSteps, driverCalls, Event.isStep, Event.toCall]
  · rw [if_neg h1]
    by_cases h2 : v.action = Action.HELP
    · simp only [h2, if_true]
      simp [deviceSteps, driverCalls, Event.isStep, Event.toCall, helpEvents]
    · simp only [h2, if_false]
      by_cases h3 : host.SUPPORT_OPT_I = false ∧ v.psuedo_iso_8601_mode > 1
      · rw [if_pos h3]
        split_ifs <;> simp [deviceSteps, driverCalls, Event.isStep, Event.toCall]
      · exact absurd ⟨h1, h2, h3⟩ h

/-- The trace of the device run: what was printed before, the port line when
verbose, the open call, and then either the error text or the events of the
action followed by the close call. -/
theorem deviceRun_trace (host : Host) (drv : Driver) (v : Vars) (pre : List Event) :
    (deviceRun host drv v pre).trace =
      pre ++ (if v.verbose ≠ 0 then
          [Event.stdout Stmt.port ("Using serial port: " ++ portOf host v ++ "\n")] else [])
        ++ [Event.call (Call.DS18B20_open (portOf host v))]
        ++ (if drv.is_fd_valid (portOf host v) = false then
              [Event.stderr (drv.errmsg 0 ++ "\n")]
            else (switchAction host drv v).2 ++ [Event.call Call.DS18B20_close]) ∧
    (deviceRun host drv v pre).status =
      (if drv.is_fd_valid (portOf host v) = false then 1 else (switchAction host drv v).1) := by
  unfold deviceRun portOf
  by_cases hv : drv.is_fd_valid (match v.serial_port with
    | some s => s
    | none => host.DEFAULT_SERIAL_PORT) = false
  · simp [hv]
  · simp [hv]

/-- The driver calls and waits of the device run. -/
theorem execute_steps (host : Host) (drv : Driver) (v : Vars) (h : reachesOpen host v) :
    deviceSteps (execute host drv v).trace =
      Event.call (Call.DS18B20_open (portOf host v)) ::
        (if drv.is_fd_valid (portOf host v) = false then []
         else deviceSteps (switchAction host drv { v with verbose := verboseOf v }).2
            ++ [Event.call Call.DS18B20_close]) ∧
    (execute host drv v).status =
      (if drv.is_fd_valid (portOf host v) = false then 1
       else (switchAction host drv { v with verbose := verboseOf v }).1) := by
  rw [execute_reaching host drv v h]
  obtain ⟨ht, hs⟩ := deviceRun_trace host drv { v with verbose := verboseOf v }
    (if verboseOf v ≠ 0 then [Event.stdout Stmt.banner bannerText] else [])
  rw [ht, hs]
  have hport : portOf host { v with verbose := verboseOf v } = portOf host v := rfl
  rw [hport]
  refine ⟨?_, rfl⟩
  simp only [deviceSteps_append]
  by_cases hv : drv.is_fd_valid (portOf host v) = false
  · simp only [hv, if_true]
    split_ifs <;> simp [deviceSteps, Event.isStep]
  · simp only [hv, if_false]
    split_ifs <;> simp [deviceSteps, Event.isStep]

theorem driverCalls_deviceSteps (t : List Event) :
    driverCalls (deviceSteps t) = driverCalls t := by
  induction t with
  | nil => rfl
  | cons e es ih =>
    cases e <;> simp_all [driverCalls, deviceSteps, Event.isStep, Event.toCall]

/-- The ACQUIRE_TEMP case: its calls and wait, its status and its temperature line. -/
theorem switch_acquire (host : Host) (drv : Driver) (v : Vars)
    (ha : v.action = Action.ACQUIRE_TEMP) :
    deviceSteps (switchAction host drv v).2 =
      (if drv.measure < 0 then [Event.call Call.DS18B20_measure]
       else [Event.call Call.DS18B20_measure, Event.wait_1s, Event.call Call.DS18B20_acquire]) ∧
    (switchAction host drv v).1 = (if drv.measure < 0 ∨ drv.acquire < 0 then 1 else 0) ∧
    printed Stmt.temperature (switchAction host drv v).2 =
      (if drv.measure < 0 ∨ drv.acquire < 0 then []
       else [temperatureText host v (convert v.units drv.temperature)]) := by
  unfold switchAction acquireCase
  rw [ha]
  by_cases hm : drv.measure < 0
  · simp [hm, deviceSteps, printed, Event.isStep, Event.textOf]
  · by_cases hq : drv.acquire < 0
    · simp only [hm, hq, if_true, if_false, false_or, or_false]
      by_cases hv : v.verbose ≠ 0 <;>
        simp [hv, deviceSteps, printed, Event.isStep, Event.textOf]
    · simp only [hm, hq, if_false, false_or, or_false]
      by_cases hv : v.verbose ≠ 0 <;>
        simp [hv, deviceSteps, printed, Event.isStep, Event.textOf]

/-- The READ_ROM case: its single call and its status. -/
theorem switch_rom (host : Host) (drv : Driver) (v : Vars) (ha : v.action = Action.READ_ROM) :
    deviceSteps (switchAction host drv v).2 = [Event.call Call.DS18B20_rom] ∧
    (switchAction host drv v).1 = (if drv.rom < 0 then 1 else 0) := by
  unfold switchAction romCase
  rw [ha]
  by_cases hr : drv.rom < 0
  · simp [hr, deviceSteps, Event.isStep]
  · simp only [hr, if_false]
    have := deviceSteps_romEvents host drv v.hex_format
    have hc : Event.call Call.DS18B20_rom :: romEvents host drv v.hex_format =
        [Event.call Call.DS18B20_rom] ++ romEvents host drv v.hex_format := rfl
    rw [hc, deviceSteps_append, this]
    simp [deviceSteps, Event.isStep]

/-- The SET case: the call is made exactly when the precision is in range. -/
theorem switch_set (host : Host) (drv : Driver) (v : Vars) (ha : v.action = Action.SET) :
    deviceSteps (switchAction host drv v).2 =
      (if v.precision < 9 ∨ 12 < v.precision then []
       else [Event.call (Call.DS18B20_setprecision v.precision)]) ∧
    (switchAction host drv v).1 =
      (if v.precision < 9 ∨ 12 < v.precision then 1 else drv.setprecision v.precision) := by
  unfold switchAction setCase
  rw [ha]
  by_cases hp : v.precision < 9 ∨ 12 < v.precision
  · simp only [hp, if_true]
    split_ifs <;> simp [deviceSteps, Event.isStep]
  · simp [hp, deviceSteps, Event.isStep]

/-- The calls between open and close never include open or close. -/
theorem switch_calls_cases (host : Host) (drv : Driver) (v : Vars) :
    driverCalls (switchAction host drv v).2 = [] ∨
    driverCalls (switchAction host drv v).2 = [Call.DS18B20_measure] ∨
    driverCalls (switchAction host drv v).2 = [Call.DS18B20_measure, Call.DS18B20_acquire] ∨
    driverCalls (switchAction host drv v).2 = [Call.DS18B20_rom] ∨
    driverCalls (switchAction host drv v).2 = [Call.DS18B20_setprecision v.precision] := by
  rw [← driverCalls_deviceSteps]
  cases ha : v.action
  · simp [switchAction, ha, deviceSteps, driverCalls]
  · rw [(switch_acquire host drv v ha).1]
    split_ifs <;> simp [driverCalls, Event.toCall]
  · rw [(switch_rom host drv v ha).1]
    simp [driverCalls, Event.toCall]
  · rw [(switch_set host drv v ha).1]
    split_ifs <;> simp [driverCalls, Event.toCall]

/-- The driver calls of a run that got past the three guards. -/
theorem execute_calls (host : Host) (drv : Driver) (v : Vars) (h : reachesOpen host v) :
    driverCalls (execute host drv v).trace =
      Call.DS18B20_open (portOf host v) ::
        (if drv.is_fd_valid (portOf host v) = false then []
         else driverCalls (switchAction host drv { v with verbose := verboseOf v }).2
            ++ [Call.DS18B20_close]) := by
  rw [← driverCalls_deviceSteps, (execute_steps host drv v h).1]
  split_ifs
  · simp [driverCalls, Event.toCall]
  · have hc : ∀ l : List Event, driverCalls (Event.call (Call.DS18B20_open (portOf host v)) :: l)
        = Call.DS18B20_open (portOf host v) :: driverCalls l := by
      intro l; simp [driverCalls, Event.toCall]
    rw [hc, driverCalls_append, driverCalls_deviceSteps]
    simp [driverCalls, Event.toCall]

/-- An open call in the trace means the run got past the three guards, and the
port is the one main selected. -/
theorem open_mem_calls (host : Host) (drv : Driver) (v : Vars) (port : String)
    (h : Call.DS18B20_open port ∈ driverCalls (execute host drv v).trace) :
    reachesOpen host v ∧ port = portOf host v := by
  by_cases hr : reachesOpen host v
  · refine ⟨hr, ?_⟩
    rw [execute_calls host drv v hr] at h
    rcases List.mem_cons.mp h with h | h
    · simpa using h
    · exfalso
      split_ifs at h
      · simp at h
      · rcases switch_calls_cases host drv { v with verbose := verboseOf v } with
          e | e | e | e | e <;> rw [e] at h <;> simp at h
  · rw [(execute_not_reaching host drv v hr).2] at h
    simp at h

/-- The temperature lines of a run that got past the three guards. -/
theorem execute_printed_temperature (host : Host) (drv : Driver) (v : Vars)
    (h : reachesOpen host v) :
    printed Stmt.temperature (execute host drv v).trace =
      (if drv.is_fd_valid (portOf host v) = false then []
       else printed Stmt.temperature
         (switchAction host drv { v with verbose := verboseOf v }).2) := by
  rw [execute_reaching host drv v h]
  rw [(deviceRun_trace host drv { v with verbose := verboseOf v } _).1]
  have hport : portOf host { v with verbose := verboseOf v } = portOf host v := rfl
  rw [hport]
  simp only [printed_append]
  by_cases hv : drv.is_fd_valid (portOf host v) = false
  · simp only [hv, if_true]
    split_ifs <;> simp [printed, Event.textOf]
  · simp only [hv, if_false]
    split_ifs <;> simp [printed, Event.textOf]

/-- The exit of line 101. -/
theorem execute_json_conflict (host : Host) (drv : Driver) (v : Vars)
    (hj : v.json_mode > 0) (ha : v.action ≠ Action.ACQUIRE_TEMP) :
    execute host drv v =
      { status := 1,
        trace := [Event.stderr "JSON output only supported when displaying temperature.\n"] } := by
  unfold execute
  rw [if_pos ⟨hj, ha⟩]

/-- The exit of line 127. -/
theorem execute_unsupported (host : Host) (drv : Driver) (v : Vars)
    (hj : ¬ (v.json_mode > 0 ∧ v.action ≠ Action.ACQUIRE_TEMP)) (hh : v.action ≠ Action.HELP)
    (hs : host.SUPPORT_OPT_I = false) (hi : v.psuedo_iso_8601_mode > 1) :
    (execute host drv v).status = -2 := by
  unfold execute
  rw [if_neg hj]
  simp only [hh, if_false]
  rw [if_pos ⟨hs, hi⟩]

/-- The precision main holds is the strtol reading of the last -p. -/
theorem resolve_precision (host : Host) (pre post : List Opt) (s : String)
    (rest : List String) (v : Vars) (hp : post.any Opt.isP = false)
    (h : resolve host (pre ++ Opt.p s :: post) rest = some v) :
    v.precision = host.strtol s := by
  have key : ∀ (l : List Opt) (a b : Vars), l.any Opt.isP = false →
      getoptLoop host a l = some b → b.precision = a.precision := by
    intro l
    induction l with
    | nil => intro a b _ e; simp only [getoptLoop, Option.some.injEq] at e; rw [e]
    | cons c cs ih =>
      intro a b hq e
      cases c <;> simp only [getoptLoop_cons, optCase, Option.some_bind, Option.none_bind] at e
      all_goals first
        | (exact absurd e (by simp))
        | (simp [Opt.isP] at hq; done)
        | simpa using ih _ _ (by simpa [Opt.isP] using hq) e
  have split : ∀ (l : List Opt) (a b : Vars), getoptLoop host a (l ++ Opt.p s :: post) = some b →
      b.precision = host.strtol s := by
    intro l
    induction l with
    | nil =>
      intro a b e
      simp only [List.nil_append, getoptLoop_cons, optCase, Option.some_bind] at e
      simpa using key post _ b hp e
    | cons c cs ih =>
      intro a b e
      cases c <;> simp only [List.cons_append, getoptLoop_cons, optCase, Option.some_bind,
        Option.none_bind] at e
      all_goals first
        | (exact absurd e (by simp))
        | exact ih _ _ e
  unfold resolve at h
  cases hl : getoptLoop host {} (pre ++ Opt.p s :: post) with
  | none => rw [hl] at h; exact absurd h (by simp)
  | some w =>
    rw [hl] at h
    simp only [Option.some.injEq] at h
    rw [← h, (afterLoop_fields w rest).2.2.2.2.1]
    exact split pre _ _ hl

/-! ## Output -/

theorem stdoutTexts_append (a b : List Event) :
    stdoutTexts (a ++ b) = stdoutTexts a ++ stdoutTexts b := by
  simp [stdoutTexts]

theorem stderrTexts_append (a b : List Event) :
    stderrTexts (a ++ b) = stderrTexts a ++ stderrTexts b := by
  simp [stderrTexts]

/-- What a run past the three guards writes to the two streams. -/
theorem execute_streams (host : Host) (drv : Driver) (v : Vars) (h : reachesOpen host v) :
    stdoutTexts (execute host drv v).trace =
      (if verboseOf v ≠ 0 then
          [bannerText, "Using serial port: " ++ portOf host v ++ "\n"] else [])
        ++ (if drv.is_fd_valid (portOf host v) = false then []
            else stdoutTexts (switchAction host drv { v with verbose := verboseOf v }).2) ∧
    stderrTexts (execute host drv v).trace =
      (if drv.is_fd_valid (portOf host v) = false then [drv.errmsg 0 ++ "\n"]
       else stderrTexts (switchAction host drv { v with verbose := verboseOf v }).2) := by
  rw [execute_reaching host drv v h]
  rw [(deviceRun_trace host drv { v with verbose := verboseOf v } _).1]
  have hport : portOf host { v with verbose := verboseOf v } = portOf host v := rfl
  rw [hport]
  simp only [stdoutTexts_append, stderrTexts_append]
  by_cases hv : drv.is_fd_valid (portOf host v) = false
  · simp only [hv, if_true]
    by_cases hb : verboseOf v ≠ 0 <;>
      simp [hb, stdoutTexts, stderrTexts, Event.outText, Event.errText]
  · simp only [hv, if_false]
    by_cases hb : verboseOf v ≠ 0 <;>
      simp [hb, stdoutTexts, stderrTexts, Event.outText, Event.errText]

/-- The texts of a statement of the action switch, in a run past the three guards. -/
theorem execute_printed (host : Host) (drv : Driver) (v : Vars) (stmt : Stmt)
    (h : reachesOpen host v) (h1 : stmt ≠ Stmt.banner) (h2 : stmt ≠ Stmt.port) :
    printed stmt (execute host drv v).trace =
      (if drv.is_fd_valid (portOf host v) = false then []
       else printed stmt (switchAction host drv { v with verbose := verboseOf v }).2) := by
  rw [execute_reaching host drv v h]
  rw [(deviceRun_trace host drv { v with verbose := verboseOf v } _).1]
  have hport : portOf host { v with verbose := verboseOf v } = portOf host v := rfl
  rw [hport]
  simp only [printed_append]
  have e1 : printed stmt (if verboseOf v ≠ 0 then
      [Event.stdout Stmt.banner bannerText] else []) = [] := by
    split_ifs <;> simp [printed, Event.textOf, Ne.symm h1]
  have e2 : printed stmt (if ({ v with verbose := verboseOf v } : Vars).verbose ≠ 0 then
      [Event.stdout Stmt.port ("Using serial port: " ++ portOf host v ++ "\n")] else []) = [] := by
    split_ifs <;> simp [printed, Event.textOf, Ne.symm h2]
  rw [e1, e2]
  by_cases hv : drv.is_fd_valid (portOf host v) = false
  · simp [hv, printed, Event.textOf]
  · simp [hv, printed, Event.textOf]

theorem hexDigit_eq (fmt : HexFormat) (d : Nat) (hd : d < 16) :
    hexDigit fmt d = (hexDigits fmt).getD d '0' := by
  interval_cases d <;> cases fmt <;> rfl

/-- For an unsigned char the printf conversion is the two-digit rendering. -/
theorem printf_hex_eq (fmt : HexFormat) (b : Nat) (hb : b < 256) :
    printf_hex fmt b = hexPair fmt b := by
  unfold printf_hex hexPair
  rw [Nat.mod_eq_of_lt hb, hexDigit_eq fmt (b / 16) (by omega),
    hexDigit_eq fmt (b % 16) (Nat.mod_lt _ (by decide))]

/-- What the READ_ROM case prints after a successful rom read. -/
theorem romCase_texts (host : Host) (drv : Driver) (v : Vars) (fmt : HexFormat)
    (ha : v.action = Action.READ_ROM) (hf : v.hex_format = some fmt) (hr : ¬ drv.rom < 0)
    (hb : ∀ i, i < host.DS18X20_ROM_SIZE → drv.rom_bytes i < 256) :
    stdoutTexts (switchAction host drv v).2 =
      "ROM: " :: ((List.range host.DS18X20_ROM_SIZE).map
        (fun i => hexPair fmt (drv.rom_bytes i)) ++ ["\n"]) ∧
    printed Stmt.rom (switchAction host drv v).2 = stdoutTexts (switchAction host drv v).2 := by
  unfold switchAction romCase
  rw [ha]
  simp only [hr, if_false, romEvents, hf]
  have hmap : (List.range host.DS18X20_ROM_SIZE).map
      (fun i => printf_hex fmt (drv.rom_bytes i)) =
      (List.range host.DS18X20_ROM_SIZE).map (fun i => hexPair fmt (drv.rom_bytes i)) := by
    apply List.map_congr_left
    intro i hi
    exact printf_hex_eq fmt _ (hb i (List.mem_range.mp hi))
  have hfm : ∀ (g : Nat → String) (l : List Nat),
      List.filterMap (fun x => some (g x)) l = List.map g l := by
    intro g l
    induction l with
    | nil => rfl
    | cons x xs ih => simp [ih]
  constructor
  · simp [stdoutTexts, Event.outText, List.filterMap_map, List.filterMap_append,
      Function.comp_def, ← hmap, hfm]
  · simp [stdoutTexts, printed, Event.outText, Event.textOf, List.filterMap_map,
      List.filterMap_append, Function.comp_def]

theorem join_wrap (a b : String) (l : List String) :
    String.join (a :: (l ++ [b])) = a ++ String.join l ++ b := by
  apply String.ext
  simp [String.data_join, String.data_append]

theorem verboseOf_eq (v : Vars) (hh : v.action ≠ Action.HELP) (hj : ¬ v.json_mode > 0) :
    verboseOf v = v.verbose := by
  unfold verboseOf
  rw [if_neg hh, if_neg hj]

theorem hexFlag_isHex (fmt : HexFormat) : (hexFlag fmt).isHex = true := by
  cases fmt <;> rfl

/-- A run that made any driver call had its options accepted. -/
theorem resolved_of_call (host : Host) (drv : Driver) (opts : List Opt) (rest : List String)
    (c : Call) (h : c ∈ driverCalls (main host drv opts rest).trace) :
    ∃ v, resolve host opts rest = some v := by
  cases hres : resolve host opts rest with
  | none =>
    rw [main_rejected host drv opts rest hres] at h
    simp [driverCalls] at h
  | some v => exact ⟨v, rfl⟩

/-- The temperature line of a run whose measure and acquire calls succeed. -/
theorem acquire_printed (host : Host) (drv : Driver) (v : Vars) (hr : reachesOpen host v)
    (ha : v.action = Action.ACQUIRE_TEMP) (hvalid : drv.is_fd_valid (portOf host v) = true)
    (hm : ¬ drv.measure < 0) (hq : ¬ drv.acquire < 0) :
    printed Stmt.temperature (execute host drv v).trace =
      [temperatureText host v (convert v.units drv.temperature)] := by
  have hv : ¬ drv.is_fd_valid (portOf host v) = false := by simp [hvalid]
  have ha2 : ({ v with verbose := verboseOf v } : Vars).action = Action.ACQUIRE_TEMP := ha
  have s3 := (switch_acquire host drv { v with verbose := verboseOf v } ha2).2.2
  have htext : temperatureText host { v with verbose := verboseOf v }
      (convert ({ v with verbose := verboseOf v } : Vars).units drv.temperature) =
      temperatureText host v (convert v.units drv.temperature) := rfl
  rw [htext] at s3
  rw [execute_printed_temperature host drv v hr, if_neg hv, s3]
  simp [hm, hq]

/-- What the SET case writes to the error stream. -/
theorem setCase_stderr (host : Host) (drv : Driver) (v : Vars) (ha : v.action = Action.SET)
    (hp : v.precision < 9 ∨ 12 < v.precision) :
    stderrTexts (switchAction host drv v).2 =
      (if v.verbose = 1 then ["Probe precision out of range!\n"] else []) := by
  unfold switchAction setCase
  rw [ha]
  simp only [hp, if_true]
  split_ifs <;> simp [stderrTexts, Event.errText]

/-- What the ACQUIRE_TEMP case writes to standard output when not verbose. -/
theorem acquireCase_stdout_quiet (host : Host) (drv : Driver) (v : Vars)
    (ha : v.action = Action.ACQUIRE_TEMP) (hvb : v.verbose = 0) :
    stdoutTexts (switchAction host drv v).2 =
      (if drv.measure < 0 ∨ drv.acquire < 0 then []
       else [temperatureText host v (convert v.units drv.temperature)]) := by
  unfold switchAction acquireCase
  rw [ha]
  by_cases hm : drv.measure < 0
  · simp [hm, stdoutTexts, Event.outText]
  · by_cases hq : drv.acquire < 0
    · simp [hm, hq, hvb, stdoutTexts, Event.outText]
    · simp [hm, hq, hvb, stdoutTexts, Event.outText]

/-! ## Float arithmetic of line 177 -/

theorem roundHalfEven_intCast (m : ℤ) : roundHalfEven (m : ℚ) = m := by
  unfold roundHalfEven
  simp

theorem roundHalfEven_near (y : ℚ) (m : ℤ) (h : |y - m| < 1 / 2) : roundHalfEven y = m := by
  rw [abs_lt] at h
  obtain ⟨h1, h2⟩ := h
  unfold roundHalfEven
  by_cases hm : (m : ℚ) ≤ y
  · have hf : ⌊y⌋ = m := by
      rw [Int.floor_eq_iff]
      constructor
      · exact hm
      · linarith
    rw [hf, if_pos (by linarith)]
  · have hf : ⌊y⌋ = m - 1 := by
      rw [Int.floor_eq_iff]
      push_cast
      constructor
      · linarith
      · push_neg at hm; linarith
    rw [hf]
    push_cast
    rw [if_neg (by linarith), if_pos (by linarith)]
    ring

theorem ulpExp_eq (x : ℚ) (l : ℤ) (h1 : (2 : ℚ) ^ l ≤ |x|) (h2 : |x| < (2 : ℚ) ^ (l + 1))
    (hl : -126 ≤ l) : ulpExp x = l - 23 := by
  have hpos : 0 < |x| := lt_of_lt_of_le (by positivity) h1
  have e1 : l ≤ Int.log 2 |x| :=
    (Int.zpow_le_iff_le_log (by norm_num) hpos).mp (by exact_mod_cast h1)
  have e2 : Int.log 2 |x| < l + 1 :=
    (Int.lt_zpow_iff_log_lt (by norm_num) hpos).mp (by exact_mod_cast h2)
  unfold ulpExp
  have e3 : Int.log 2 |x| = l := by omega
  rw [e3, max_eq_left hl]

/-- The float stored for a positive normal value, from its binade and the
nearest multiple of the spacing there. -/
theorem roundFloat_near (x : ℚ) (l m : ℤ) (h1 : (2 : ℚ) ^ l ≤ x)
    (h2 : x < (2 : ℚ) ^ (l + 1)) (hl : -126 ≤ l)
    (hm : |x / (2 : ℚ) ^ (l - 23) - m| < 1 / 2) :
    roundFloat x = (m : ℚ) * (2 : ℚ) ^ (l - 23) := by
  have hpos : 0 < x := lt_of_lt_of_le (by positivity) h1
  unfold roundFloat
  rw [ulpExp_eq x l (by rw [abs_of_pos hpos]; exact h1) (by rw [abs_of_pos hpos]; exact h2) hl,
    roundHalfEven_near _ m hm]

theorem roundFloat_zero : roundFloat 0 = 0 := by
  unfold roundFloat
  simp [roundHalfEven]

/-- A value a float can hold is stored unchanged. -/
theorem roundFloat_of_isBinary32 (x : ℚ) (h : isBinary32 x) : roundFloat x = x := by
  obtain ⟨m, k, hm, hk, -, hx⟩ := h
  by_cases h0 : m = 0
  · rw [hx, h0]; simp [roundFloat_zero]
  · have h2pos : ∀ z : ℤ, (0 : ℚ) < (2 : ℚ) ^ z := fun z => by positivity
    have habs : |x| = (|m| : ℤ) * (2 : ℚ) ^ k := by
      rw [hx, abs_mul, abs_of_pos (h2pos k)]; push_cast; rfl
    have hpos : 0 < |x| := by
      rw [habs]
      have hmp : (0 : ℚ) < ((|m| : ℤ) : ℚ) := by exact_mod_cast abs_pos.mpr h0
      exact mul_pos hmp (h2pos k)
    have hlt : |x| < (2 : ℚ) ^ (24 + k) := by
      rw [habs, zpow_add₀ (by norm_num : (2 : ℚ) ≠ 0)]
      have hm2 : |m| < 16777216 := by norm_num at hm; exact hm
      have hm3 : ((|m| : ℤ) : ℚ) < (2 : ℚ) ^ (24 : ℤ) := by
        norm_num
        exact_mod_cast hm2
      exact mul_lt_mul_of_pos_right hm3 (h2pos k)
    have hlog : Int.log 2 |x| < 24 + k :=
      (Int.lt_zpow_iff_log_lt (by norm_num) hpos).mp (by exact_mod_cast hlt)
    obtain ⟨e, hee⟩ : ∃ e, ulpExp x = e := ⟨_, rfl⟩
    have he : e ≤ k := by
      rw [← hee]
      unfold ulpExp
      rcases max_cases (Int.log 2 |x|) (-126) with ⟨e1, -⟩ | ⟨e1, -⟩ <;> rw [e1] <;> omega
    obtain ⟨n, hn⟩ : ∃ n : ℕ, k - e = n := ⟨(k - e).toNat, by omega⟩
    have hdiv : x / (2 : ℚ) ^ e = ((m * 2 ^ n : ℤ) : ℚ) := by
      rw [hx, mul_div_assoc, ← zpow_sub₀ (by norm_num : (2 : ℚ) ≠ 0), hn]
      push_cast
      simp
    unfold roundFloat
    rw [hee, hdiv, roundHalfEven_intCast, ← hdiv]
    have hne : (2 : ℚ) ^ e ≠ 0 := ne_of_gt (h2pos e)
    field_simp

/-- Line 177 is exact when its three intermediate values are floats. -/
theorem convert_exact (t : ℚ) (h1 : isBinary32 (9 * t)) (h2 : isBinary32 (9 * t / 5))
    (h3 : isBinary32 (exactFahrenheit t)) : convert 'F' t = exactFahrenheit t := by
  unfold convert
  rw [if_pos rfl, roundFloat_of_isBinary32 _ h1, roundFloat_of_isBinary32 _ h2]
  exact roundFloat_of_isBinary32 _ h3

/-- Line 177 at the reading 0.125. -/
theorem convert_eighth : convert 'F' (1 / 8) = 4223795 / 131072 := by
  unfold convert
  rw [if_pos rfl]
  have s1 : roundFloat (9 * (1 / 8)) = 9 / 8 := by
    rw [roundFloat_near _ 0 9437184 (by norm_num) (by norm_num) (by norm_num)
      (by norm_num [abs_lt])]
    norm_num
  have s2 : roundFloat (9 / 8 / 5) = 7549747 / 33554432 := by
    rw [roundFloat_near _ (-3) 15099494 (by norm_num) (by norm_num) (by norm_num)
      (by norm_num [abs_lt])]
    norm_num
  have s3 : roundFloat (7549747 / 33554432 + 32) = 4223795 / 131072 := by
    rw [roundFloat_near _ 5 8447590 (by norm_num) (by norm_num) (by norm_num)
      (by norm_num [abs_lt])]
    norm_num
  rw [s1, s2, s3]

/-! ## Action resolution (lines 46-95) -/

/-- C1 (counterexample): the two orderings -h -p 10 and -p 10 -h of the same
flags resolve to different actions, SetPrecision and Help, while the override
sequence of the specification gives Help for both. -/
theorem resolve_depends_on_flag_order :
    (resolve sampleHost [Opt.h, Opt.p "10"] []).map Vars.action = some Action.SET ∧
    (resolve sampleHost [Opt.p "10", Opt.h] []).map Vars.action = some Action.HELP ∧
    specAction [Opt.h, Opt.p "10"] = Action.HELP ∧
    specAction [Opt.p "10", Opt.h] = Action.HELP ∧
    List.Perm [Opt.h, Opt.p "10"] [Opt.p "10", Opt.h] :=
  ⟨by decide, by decide, by decide, by decide, List.Perm.swap _ _ []⟩

/-- C1 (amended): for every flag sequence the option parser accepts, main
resolves exactly one of the four actions, namely the result of the override
sequence in the order main applies it (default AcquireTemperature; then each -h
and -p in command-line order; then -f; then -r or -R).  That action is the one of
the override sequence of the specification exactly when, with -h present, there
is no hex-case flag, no -f and no -p after the last -h, and, with -h absent, not
both a hex-case flag and -f.  Two orderings of the same flags resolve to the
same action whenever they hold a hex-case flag or -f, or do not hold both -h and
-p. -/
theorem resolve_action_ordered (host : Host) (opts opts' : List Opt)
    (rest rest' : List String) (hacc : Opt.unknown ∉ opts) (hperm : opts.Perm opts') :
    ∃ v v', resolve host opts rest = some v ∧ resolve host opts' rest' = some v' ∧
      (v.action = Action.HELP ∨ v.action = Action.ACQUIRE_TEMP ∨
        v.action = Action.READ_ROM ∨ v.action = Action.SET) ∧
      v.action = orderedAction opts ∧
      (v.action = specAction opts ↔
        (if Opt.h ∈ opts then
          opts.any Opt.isHex = false ∧ Opt.f ∉ opts ∧
            lastHelpOrSet Action.ACQUIRE_TEMP opts = Action.HELP
         else ¬ (opts.any Opt.isHex = true ∧ Opt.f ∈ opts))) ∧
      ((opts.any Opt.isHex = true ∨ Opt.f ∈ opts ∨
          ¬ (Opt.h ∈ opts ∧ opts.any Opt.isP = true)) → v.action = v'.action) := by
  have hacc' : Opt.unknown ∉ opts' := fun e => hacc (hperm.mem_iff.mpr e)
  obtain ⟨v, hv⟩ := resolve_accepts host opts rest hacc
  obtain ⟨v', hv'⟩ := resolve_accepts host opts' rest' hacc'
  have ha := (resolve_vars host opts rest v hv).1
  have ha' := (resolve_vars host opts' rest' v' hv').1
  refine ⟨v, v', hv, hv', ?_, ha, ?_, ?_⟩
  · cases v.action <;> simp
  · rw [ha]; exact orderedAction_eq_specAction_iff opts
  · intro hc
    rw [ha, ha']
    exact orderedAction_perm opts opts' hperm hc

/-- C1 (witness): the amended statement at -q -r -p 10 and its reverse. -/
theorem resolve_action_ordered_witness :
    Opt.unknown ∉ [Opt.q, Opt.r, Opt.p "10"] ∧
    List.Perm [Opt.q, Opt.r, Opt.p "10"] [Opt.p "10", Opt.r, Opt.q] ∧
    ∃ v v', resolve sampleHost [Opt.q, Opt.r, Opt.p "10"] [] = some v ∧
      resolve sampleHost [Opt.p "10", Opt.r, Opt.q] [] = some v' ∧
      v.action = orderedAction [Opt.q, Opt.r, Opt.p "10"] ∧ v.action = v'.action := by
  have hp : List.Perm [Opt.q, Opt.r, Opt.p "10"] [Opt.p "10", Opt.r, Opt.q] := by
    simpa using List.reverse_perm [Opt.p "10", Opt.r, Opt.q]
  obtain ⟨v, v', h1, h2, -, h4, -, h6⟩ :=
    resolve_action_ordered sampleHost [Opt.q, Opt.r, Opt.p "10"] [Opt.p "10", Opt.r, Opt.q]
      [] [] (by decide) hp
  exact ⟨by decide, hp, v, v', h1, h2, h4, h6 (Or.inl (by decide))⟩

/-- C7 (counterexample): -f -r holds -f and no -h, and resolves to ReadRom. -/
theorem fahrenheit_loses_to_hex_case :
    Opt.f ∈ [Opt.f, Opt.r] ∧ Opt.h ∉ [Opt.f, Opt.r] ∧
    (resolve sampleHost [Opt.f, Opt.r] []).map Vars.action = some Action.READ_ROM :=
  ⟨by decide, by decide, by decide⟩

/-- C7 (amended): for every accepted flag sequence that contains -f and contains
neither -h nor a hex-case flag (-r or -R), the resolved action is
AcquireTemperature, even when a precision flag (-p) is also supplied. -/
theorem fahrenheit_forces_acquire (host : Host) (opts : List Opt) (rest : List String)
    (hacc : Opt.unknown ∉ opts) (hf : Opt.f ∈ opts) (_hh : Opt.h ∉ opts)
    (hx : opts.any Opt.isHex = false) :
    ∃ v, resolve host opts rest = some v ∧ v.action = Action.ACQUIRE_TEMP := by
  obtain ⟨v, hv⟩ := resolve_accepts host opts rest hacc
  refine ⟨v, hv, ?_⟩
  rw [(resolve_vars host opts rest v hv).1]
  simp [orderedAction, hx, hf]

/-- C7 (witness): the amended statement at -p 10 -f. -/
theorem fahrenheit_forces_acquire_witness :
    ∃ v, resolve sampleHost [Opt.p "10", Opt.f] [] = some v ∧
      v.action = Action.ACQUIRE_TEMP :=
  fahrenheit_forces_acquire sampleHost [Opt.p "10", Opt.f] [] (by decide) (by decide)
    (by decide) (by decide)

/-- C8 (counterexample): -h with -f resolves to AcquireTemperature, -h with -r to
ReadRom, and -h followed by -p 10 to SetPrecision. -/
theorem help_is_overridden :
    (resolve sampleHost [Opt.h, Opt.f] []).map Vars.action = some Action.ACQUIRE_TEMP ∧
    (resolve sampleHost [Opt.h, Opt.r] []).map Vars.action = some Action.READ_ROM ∧
    (resolve sampleHost [Opt.h, Opt.p "10"] []).map Vars.action = some Action.SET :=
  ⟨by decide, by decide, by decide⟩

/-- C8 (amended): for every accepted flag sequence that contains a -h with no -p
after it, and contains neither -f nor a hex-case flag (-r or -R), the resolved
action is Help, overriding any precision flag given before that -h. -/
theorem help_wins_when_last (host : Host) (pre post : List Opt) (rest : List String)
    (hacc : Opt.unknown ∉ pre ++ Opt.h :: post) (hp : post.any Opt.isP = false)
    (hf : Opt.f ∉ pre ++ Opt.h :: post) (hx : (pre ++ Opt.h :: post).any Opt.isHex = false) :
    ∃ v, resolve host (pre ++ Opt.h :: post) rest = some v ∧ v.action = Action.HELP := by
  obtain ⟨v, hv⟩ := resolve_accepts host _ rest hacc
  refine ⟨v, hv, ?_⟩
  rw [(resolve_vars host _ rest v hv).1]
  unfold orderedAction
  rw [hx]
  simp only [Bool.false_eq_true, if_false, hf]
  rw [lastHelpOrSet_append]
  simp only [lastHelpOrSet]
  exact lastHelpOrSet_help_seed post hp

/-- C8 (witness): the amended statement at -p 10 -h -q. -/
theorem help_wins_when_last_witness :
    ∃ v, resolve sampleHost ([Opt.p "10"] ++ Opt.h :: [Opt.q]) [] = some v ∧
      v.action = Action.HELP :=
  help_wins_when_last sampleHost [Opt.p "10"] [Opt.q] [] (by decide) (by decide)
    (by decide) (by decide)

/-- C9: for every accepted flag sequence that contains both a precision flag
(-p) and a hex-case flag (-r or -R) and contains neither -f nor -h, the resolved
action is ReadRom, in either order of the two flags. -/
theorem hex_case_beats_precision (host : Host) (opts : List Opt) (rest : List String)
    (hacc : Opt.unknown ∉ opts) (_hp : opts.any Opt.isP = true)
    (hx : opts.any Opt.isHex = true) (_hf : Opt.f ∉ opts) (_hh : Opt.h ∉ opts) :
    ∃ v, resolve host opts rest = some v ∧ v.action = Action.READ_ROM := by
  obtain ⟨v, hv⟩ := resolve_accepts host opts rest hacc
  refine ⟨v, hv, ?_⟩
  rw [(resolve_vars host opts rest v hv).1]
  simp [orderedAction, hx]

/-- C9 (witness): -p 10 -r and -R -p 10 both resolve to ReadRom. -/
theorem hex_case_beats_precision_witness :
    (∃ v, resolve sampleHost [Opt.p "10", Opt.r] [] = some v ∧
      v.action = Action.READ_ROM) ∧
    (∃ v, resolve sampleHost [Opt.R, Opt.p "10"] [] = some v ∧
      v.action = Action.READ_ROM) :=
  ⟨hex_case_beats_precision sampleHost [Opt.p "10", Opt.r] [] (by decide) (by decide)
      (by decide) (by decide) (by decide),
   hex_case_beats_precision sampleHost [Opt.R, Opt.p "10"] [] (by decide) (by decide)
      (by decide) (by decide) (by decide)⟩

/-! ## Command execution (lines 97-215) -/

/-- C2: in every run the driver calls are none at all, or a single failed open
with status 1, or an open that succeeded first, a close last, and that close the
only one; and every run with a resolved device action that passes the JSON and
-I guards does begin its driver calls with the open of the selected port. -/
theorem close_once_after_open (host : Host) (drv : Driver) (opts : List Opt)
    (rest : List String) :
    (driverCalls (main host drv opts rest).trace = [] ∨
     (∃ port, drv.is_fd_valid port = false ∧
        driverCalls (main host drv opts rest).trace = [Call.DS18B20_open port] ∧
        (main host drv opts rest).status = 1) ∨
     (∃ port, drv.is_fd_valid port = true ∧
        (driverCalls (main host drv opts rest).trace).head? = some (Call.DS18B20_open port) ∧
        (driverCalls (main host drv opts rest).trace).getLast? = some Call.DS18B20_close ∧
        (driverCalls (main host drv opts rest).trace).count Call.DS18B20_close = 1 ∧
        (driverCalls (main host drv opts rest).trace).count (Call.DS18B20_open port) = 1)) ∧
    (∀ v, resolve host opts rest = some v → v.action ≠ Action.HELP →
      (v.json_mode > 0 → v.action = Action.ACQUIRE_TEMP) →
      (host.SUPPORT_OPT_I = true ∨ v.psuedo_iso_8601_mode ≤ 1) →
      (driverCalls (main host drv opts rest).trace).head?
        = some (Call.DS18B20_open (portOf host v))) := by
  constructor
  · cases hres : resolve host opts rest with
    | none => left; rw [main_rejected host drv opts rest hres]; rfl
    | some v =>
      rw [main_of_resolve host drv opts rest v hres]
      by_cases hr : reachesOpen host v
      · have hs := (execute_steps host drv v hr).2
        rw [execute_calls host drv v hr, hs]
        by_cases hv : drv.is_fd_valid (portOf host v) = false
        · right; left
          exact ⟨portOf host v, hv, by simp [hv], by simp [hv]⟩
        · right; right
          refine ⟨portOf host v, by simpa using hv, ?_⟩
          simp only [hv, if_false]
          rcases switch_calls_cases host drv { v with verbose := verboseOf v } with
            e | e | e | e | e <;> rw [e] <;> simp
      · left; exact (execute_not_reaching host drv v hr).2
  · intro v hres hh hj hI
    rw [main_of_resolve host drv opts rest v hres]
    have hr : reachesOpen host v := by
      refine ⟨fun h => h.2 (hj h.1), hh, fun h => ?_⟩
      rcases hI with e | e
      · rw [h.1] at e; exact absurd e (by simp)
      · exact absurd h.2 (by omega)
    rw [execute_calls host drv v hr]
    rfl

/-- C2 (witness): -r on a driver whose open succeeds begins with the open of the
default port. -/
theorem close_once_after_open_witness :
    (driverCalls (main sampleHost goodDriver [Opt.r] []).trace).head?
      = some (Call.DS18B20_open "/dev/ttyUSB0") :=
  (close_once_after_open sampleHost goodDriver [Opt.r] []).2
    (afterLoop { hex_format := some HexFormat.hex_lower } []) (by decide) (by decide)
    (by decide) (by decide)

/-- C3: for every flag sequence that requests JSON (-j) and whose resolved action
is ReadRom or SetPrecision, the run ends with status 1, which is not the success
status, and issues no driver call and no wait. -/
theorem json_conflict_no_driver_call (host : Host) (drv : Driver) (opts : List Opt)
    (rest : List String) (v : Vars) (hres : resolve host opts rest = some v)
    (hj : Opt.j ∈ opts) (ha : v.action = Action.READ_ROM ∨ v.action = Action.SET) :
    (main host drv opts rest).status = 1 ∧ (main host drv opts rest).status ≠ 0 ∧
    driverCalls (main host drv opts rest).trace = [] ∧
    deviceSteps (main host drv opts rest).trace = [] := by
  have hjm : v.json_mode > 0 := by
    rw [(resolve_vars host opts rest v hres).2.2.2.1]; simp [hj]
  have hne : v.action ≠ Action.ACQUIRE_TEMP := by
    rcases ha with e | e <;> rw [e] <;> decide
  rw [main_of_resolve host drv opts rest v hres, execute_json_conflict host drv v hjm hne]
  simp [driverCalls, deviceSteps, Event.toCall, Event.isStep]

/-- C3 (witness): -j -R and -p 10 -j. -/
theorem json_conflict_no_driver_call_witness :
    ((main sampleHost goodDriver [Opt.j, Opt.R] []).status = 1 ∧
      (main sampleHost goodDriver [Opt.j, Opt.R] []).status ≠ 0 ∧
      driverCalls (main sampleHost goodDriver [Opt.j, Opt.R] []).trace = [] ∧
      deviceSteps (main sampleHost goodDriver [Opt.j, Opt.R] []).trace = []) ∧
    ((main sampleHost goodDriver [Opt.p "10", Opt.j] []).status = 1 ∧
      (main sampleHost goodDriver [Opt.p "10", Opt.j] []).status ≠ 0 ∧
      driverCalls (main sampleHost goodDriver [Opt.p "10", Opt.j] []).trace = [] ∧
      deviceSteps (main sampleHost goodDriver [Opt.p "10", Opt.j] []).trace = []) :=
  ⟨json_conflict_no_driver_call sampleHost goodDriver [Opt.j, Opt.R] []
      (afterLoop { json_mode := 1, hex_format := some HexFormat.hex_upper } [])
      (by decide) (by decide) (by decide),
   json_conflict_no_driver_call sampleHost goodDriver [Opt.p "10", Opt.j] []
      (afterLoop { json_mode := 1, action := Action.SET, precision := 10 } [])
      (by decide) (by decide) (by decide)⟩

/-- C4 (counterexample): -j -r ends before any driver call with status 1, the
status a failed open gives. -/
theorem json_conflict_status_is_device_status :
    (main sampleHost goodDriver [Opt.j, Opt.r] []).status = 1 ∧
    driverCalls (main sampleHost goodDriver [Opt.j, Opt.r] []).trace = [] ∧
    (main sampleHost noOpenDriver [] []).status = 1 ∧
    driverCalls (main sampleHost noOpenDriver [] []).trace
      = [Call.DS18B20_open "/dev/ttyUSB0"] :=
  ⟨by decide, by decide, by decide, by decide⟩

/-- C4 (amended): a run that ends because -I is selected on a host without
support (and is neither a JSON conflict nor Help) has exit status -2, distinct
from both the success status 0 and the device-failure status 1; a run that ends
because JSON was requested with a resolved action other than AcquireTemperature
has exit status 1, distinct from 0.  Neither issues a driver call. -/
theorem usage_error_status (host : Host) (drv : Driver) (opts : List Opt)
    (rest : List String) (v : Vars) (hres : resolve host opts rest = some v) :
    (v.json_mode > 0 → v.action ≠ Action.ACQUIRE_TEMP →
      (main host drv opts rest).status = 1 ∧ (main host drv opts rest).status ≠ 0 ∧
      driverCalls (main host drv opts rest).trace = []) ∧
    (¬ (v.json_mode > 0 ∧ v.action ≠ Action.ACQUIRE_TEMP) → v.action ≠ Action.HELP →
      host.SUPPORT_OPT_I = false → v.psuedo_iso_8601_mode > 1 →
      (main host drv opts rest).status = -2 ∧ (main host drv opts rest).status ≠ 0 ∧
      (main host drv opts rest).status ≠ 1 ∧
      driverCalls (main host drv opts rest).trace = []) := by
  rw [main_of_resolve host drv opts rest v hres]
  constructor
  · intro hj ha
    rw [execute_json_conflict host drv v hj ha]
    simp [driverCalls, Event.toCall]
  · intro hj hh hs hi
    have hst := execute_unsupported host drv v hj hh hs hi
    have hnr : ¬ reachesOpen host v := fun h => h.2.2 ⟨hs, hi⟩
    rw [hst]
    exact ⟨rfl, by decide, by decide, (execute_not_reaching host drv v hnr).2⟩

/-- C4 (witness): -I on a host without SUPPORT_OPT_I ends with -2, and -j -r
with 1. -/
theorem usage_error_status_witness :
    ((main plainHost goodDriver [Opt.I] []).status = -2 ∧
      (main plainHost goodDriver [Opt.I] []).status ≠ 0 ∧
      (main plainHost goodDriver [Opt.I] []).status ≠ 1 ∧
      driverCalls (main plainHost goodDriver [Opt.I] []).trace = []) ∧
    ((main sampleHost goodDriver [Opt.j, Opt.r] []).status = 1 ∧
      (main sampleHost goodDriver [Opt.j, Opt.r] []).status ≠ 0 ∧
      driverCalls (main sampleHost goodDriver [Opt.j, Opt.r] []).trace = []) :=
  ⟨(usage_error_status plainHost goodDriver [Opt.I] []
      (afterLoop { psuedo_iso_8601_mode := 2 } []) (by decide)).2
      (by decide) (by decide) (by decide) (by decide),
   (usage_error_status sampleHost goodDriver [Opt.j, Opt.r] []
      (afterLoop { json_mode := 1, hex_format := some HexFormat.hex_lower } [])
      (by decide)).1 (by decide) (by decide)⟩

/-- C5 (counterexample): -p 8 with a working driver opens and closes the device
before the run is rejected, so the driver-call trace is not empty; the same holds
for -p 13. -/
theorem precision_checked_after_open :
    (resolve sampleHost [Opt.p "8"] []).map Vars.precision = some 8 ∧
    (main sampleHost goodDriver [Opt.p "8"] []).status = 1 ∧
    driverCalls (main sampleHost goodDriver [Opt.p "8"] []).trace
      = [Call.DS18B20_open "/dev/ttyUSB0", Call.DS18B20_close] ∧
    driverCalls (main sampleHost goodDriver [Opt.p "13"] []).trace
      = [Call.DS18B20_open "/dev/ttyUSB0", Call.DS18B20_close] :=
  ⟨by decide, by decide, by decide, by decide⟩

/-- C5 (amended): for every requested precision p with p < 9 or p > 12, a run
whose resolved action is SetPrecision and that passes the JSON and -I guards is
rejected with status 1 without a set_precision call; the range check happens
after the device is opened, so the driver calls are the open followed by the
close when the open succeeds, and the open alone when it fails. -/
theorem precision_rejected_after_open (host : Host) (drv : Driver) (opts : List Opt)
    (rest : List String) (v : Vars) (hres : resolve host opts rest = some v)
    (ha : v.action = Action.SET) (hp : v.precision < 9 ∨ 12 < v.precision)
    (hj : ¬ v.json_mode > 0)
    (hI : ¬ (host.SUPPORT_OPT_I = false ∧ v.psuedo_iso_8601_mode > 1)) :
    (main host drv opts rest).status = 1 ∧
    driverCalls (main host drv opts rest).trace =
      (if drv.is_fd_valid (portOf host v) = false then [Call.DS18B20_open (portOf host v)]
       else [Call.DS18B20_open (portOf host v), Call.DS18B20_close]) := by
  have hr : reachesOpen host v := ⟨fun h => hj h.1, by rw [ha]; decide, hI⟩
  have ha2 : ({ v with verbose := verboseOf v } : Vars).action = Action.SET := ha
  have hsw := switch_set host drv { v with verbose := verboseOf v } ha2
  have hp2 : ({ v with verbose := verboseOf v } : Vars).precision < 9 ∨
      12 < ({ v with verbose := verboseOf v } : Vars).precision := hp
  rw [if_pos hp2, if_pos hp2] at hsw
  rw [main_of_resolve host drv opts rest v hres, execute_calls host drv v hr,
    (execute_steps host drv v hr).2, ← driverCalls_deviceSteps, hsw.1, hsw.2]
  by_cases hv : drv.is_fd_valid (portOf host v) = false
  · simp [hv, driverCalls]
  · simp [hv, driverCalls]

/-- C5 (witness): -p 13 -q on a working driver. -/
theorem precision_rejected_after_open_witness :
    (main sampleHost goodDriver [Opt.p "13", Opt.q] []).status = 1 ∧
    driverCalls (main sampleHost goodDriver [Opt.p "13", Opt.q] []).trace =
      [Call.DS18B20_open "/dev/ttyUSB0", Call.DS18B20_close] :=
  precision_rejected_after_open sampleHost goodDriver [Opt.p "13", Opt.q] []
    (afterLoop { action := Action.SET, precision := 13, verbose := 0 } [])
    (by decide) (by decide) (by decide) (by decide) (by decide)

/-- C6: for every SetPrecision run in which open succeeded, with p the value main
holds in `precision`, DS18B20_setprecision is called if and only if
9 <= p <= 12; when called it is the only call between open and close, made once
with p unchanged, and the exit status is the return code of that call, whatever
integer it is. -/
theorem setprecision_iff_in_range (host : Host) (drv : Driver) (opts : List Opt)
    (rest : List String) (v : Vars) (port : String)
    (hres : resolve host opts rest = some v) (ha : v.action = Action.SET)
    (hopen : Call.DS18B20_open port ∈ driverCalls (main host drv opts rest).trace)
    (hvalid : drv.is_fd_valid port = true) :
    ((∃ q, Call.DS18B20_setprecision q ∈ driverCalls (main host drv opts rest).trace) ↔
      (9 ≤ v.precision ∧ v.precision ≤ 12)) ∧
    ((9 ≤ v.precision ∧ v.precision ≤ 12) →
      driverCalls (main host drv opts rest).trace =
        [Call.DS18B20_open port, Call.DS18B20_setprecision v.precision, Call.DS18B20_close] ∧
      (main host drv opts rest).status = drv.setprecision v.precision) := by
  rw [main_of_resolve host drv opts rest v hres] at hopen ⊢
  obtain ⟨hr, hport⟩ := open_mem_calls host drv v port hopen
  subst hport
  have hv : ¬ drv.is_fd_valid (portOf host v) = false := by simp [hvalid]
  have ha2 : ({ v with verbose := verboseOf v } : Vars).action = Action.SET := ha
  have hsw := switch_set host drv { v with verbose := verboseOf v } ha2
  have hprec : ({ v with verbose := verboseOf v } : Vars).precision = v.precision := rfl
  rw [hprec] at hsw
  rw [execute_calls host drv v hr, (execute_steps host drv v hr).2,
    ← driverCalls_deviceSteps, hsw.1, hsw.2]
  simp only [hv, if_false]
  by_cases hp : v.precision < 9 ∨ 12 < v.precision
  · have hn : ¬ (9 ≤ v.precision ∧ v.precision ≤ 12) := by omega
    simp [hp, hn, driverCalls]
  · have hn : 9 ≤ v.precision ∧ v.precision ≤ 12 := by omega
    simp [hp, hn, driverCalls, Event.toCall]

/-- C6 (witness): -p 9 on a driver whose set_precision returns 7. -/
theorem setprecision_iff_in_range_witness :
    driverCalls (main sampleHost { goodDriver with setprecision := fun _ => 7 }
        [Opt.p "9"] []).trace =
      [Call.DS18B20_open "/dev/ttyUSB0", Call.DS18B20_setprecision 9, Call.DS18B20_close] ∧
    (main sampleHost { goodDriver with setprecision := fun _ => 7 } [Opt.p "9"] []).status
      = 7 :=
  (setprecision_iff_in_range sampleHost { goodDriver with setprecision := fun _ => 7 }
    [Opt.p "9"] [] (afterLoop { action := Action.SET, precision := 9 } []) "/dev/ttyUSB0"
    (by decide) (by decide) (by decide) (by decide)).2 (by decide)

/-- C10: for every AcquireTemperature run in which open succeeded, the first call
after open is measure; if measure fails there is no wait and no acquire, no
temperature line, and the status is 1; if measure succeeds there is exactly one
wait (verbose or quiet) followed by exactly one acquire; if acquire fails there
is no temperature line and the status is 1; if both succeed there is exactly one
temperature line and the status is 0.  No call is repeated, and close ends the
run in each case. -/
theorem acquire_sequence (host : Host) (drv : Driver) (opts : List Opt)
    (rest : List String) (v : Vars) (port : String)
    (hres : resolve host opts rest = some v) (ha : v.action = Action.ACQUIRE_TEMP)
    (hopen : Call.DS18B20_open port ∈ driverCalls (main host drv opts rest).trace)
    (hvalid : drv.is_fd_valid port = true) :
    (drv.measure < 0 →
      deviceSteps (main host drv opts rest).trace =
        [Event.call (Call.DS18B20_open port), Event.call Call.DS18B20_measure,
          Event.call Call.DS18B20_close] ∧
      printed Stmt.temperature (main host drv opts rest).trace = [] ∧
      (main host drv opts rest).status = 1) ∧
    (¬ drv.measure < 0 → drv.acquire < 0 →
      deviceSteps (main host drv opts rest).trace =
        [Event.call (Call.DS18B20_open port), Event.call Call.DS18B20_measure,
          Event.wait_1s, Event.call Call.DS18B20_acquire, Event.call Call.DS18B20_close] ∧
      printed Stmt.temperature (main host drv opts rest).trace = [] ∧
      (main host drv opts rest).status = 1) ∧
    (¬ drv.measure < 0 → ¬ drv.acquire < 0 →
      deviceSteps (main host drv opts rest).trace =
        [Event.call (Call.DS18B20_open port), Event.call Call.DS18B20_measure,
          Event.wait_1s, Event.call Call.DS18B20_acquire, Event.call Call.DS18B20_close] ∧
      printed Stmt.temperature (main host drv opts rest).trace =
        [temperatureText host v (convert v.units drv.temperature)] ∧
      (main host drv opts rest).status = 0) := by
  rw [main_of_resolve host drv opts rest v hres] at hopen ⊢
  obtain ⟨hr, hport⟩ := open_mem_calls host drv v port hopen
  subst hport
  have hv : ¬ drv.is_fd_valid (portOf host v) = false := by simp [hvalid]
  have ha2 : ({ v with verbose := verboseOf v } : Vars).action = Action.ACQUIRE_TEMP := ha
  obtain ⟨s1, s2, s3⟩ := switch_acquire host drv { v with verbose := verboseOf v } ha2
  have htext : temperatureText host { v with verbose := verboseOf v }
      (convert ({ v with verbose := verboseOf v } : Vars).units drv.temperature) =
      temperatureText host v (convert v.units drv.temperature) := rfl
  rw [htext] at s3
  rw [(execute_steps host drv v hr).1, (execute_steps host drv v hr).2,
    execute_printed_temperature host drv v hr, s1, s2, s3]
  simp only [hv, if_false]
  refine ⟨fun hm => ?_, fun hm hq => ?_, fun hm hq => ?_⟩
  · simp [hm]
  · simp [hm, hq]
  · simp [hm, hq]

/-- C10 (witness): a quiet Fahrenheit run on a working driver, and a run whose
measure call fails. -/
theorem acquire_sequence_witness :
    (deviceSteps (main sampleHost goodDriver [Opt.q, Opt.f] []).trace =
        [Event.call (Call.DS18B20_open "/dev/ttyUSB0"), Event.call Call.DS18B20_measure,
          Event.wait_1s, Event.call Call.DS18B20_acquire, Event.call Call.DS18B20_close] ∧
      printed Stmt.temperature (main sampleHost goodDriver [Opt.q, Opt.f] []).trace =
        [temperatureText sampleHost (afterLoop { units := 'F', verbose := 0 } [])
          (convert 'F' goodDriver.temperature)] ∧
      (main sampleHost goodDriver [Opt.q, Opt.f] []).status = 0) ∧
    (deviceSteps (main sampleHost { goodDriver with measure := -1 } [] []).trace =
        [Event.call (Call.DS18B20_open "/dev/ttyUSB0"), Event.call Call.DS18B20_measure,
          Event.call Call.DS18B20_close] ∧
      printed Stmt.temperature (main sampleHost { goodDriver with measure := -1 } [] []).trace
        = [] ∧
      (main sampleHost { goodDriver with measure := -1 } [] []).status = 1) :=
  ⟨(acquire_sequence sampleHost goodDriver [Opt.q, Opt.f] []
      (afterLoop { units := 'F', verbose := 0 } []) "/dev/ttyUSB0"
      (by decide) (by decide) (by decide) (by decide)).2.2 (by decide) (by decide),
   (acquire_sequence sampleHost { goodDriver with measure := -1 } [] []
      (afterLoop {} []) "/dev/ttyUSB0"
      (by decide) (by decide) (by decide) (by decide)).1 (by decide)⟩

/-! ## Rendering (lines 176-199) -/

/-- C11: for every ROM of the fixed size returned by a successful rom read and
for each hex case, the ReadRom output is "ROM: ", then two hex digits per byte
(zero-padded, high nibble first, bytes in order, in the case of the last
hex-case flag: lower for -r, upper for -R) with nothing between them, then a
newline; it follows the banner and port lines, which are absent under -q. -/
theorem rom_rendering (host : Host) (drv : Driver) (pre post : List Opt) (fmt : HexFormat)
    (rest : List String) (v : Vars)
    (hres : resolve host (pre ++ hexFlag fmt :: post) rest = some v)
    (hlast : post.any Opt.isHex = false)
    (hj : Opt.j ∉ pre ++ hexFlag fmt :: post)
    (hI : host.SUPPORT_OPT_I = true ∨ v.psuedo_iso_8601_mode ≤ 1)
    (hvalid : drv.is_fd_valid (portOf host v) = true) (hrom : ¬ drv.rom < 0)
    (hbytes : ∀ i, i < host.DS18X20_ROM_SIZE → drv.rom_bytes i < 256) :
    printed Stmt.rom (main host drv (pre ++ hexFlag fmt :: post) rest).trace =
      "ROM: " :: ((List.range host.DS18X20_ROM_SIZE).map
        (fun i => hexPair fmt (drv.rom_bytes i)) ++ ["\n"]) ∧
    String.join (printed Stmt.rom (main host drv (pre ++ hexFlag fmt :: post) rest).trace) =
      "ROM: " ++ String.join ((List.range host.DS18X20_ROM_SIZE).map
        (fun i => hexPair fmt (drv.rom_bytes i))) ++ "\n" ∧
    stdoutTexts (main host drv (pre ++ hexFlag fmt :: post) rest).trace =
      (if Opt.q ∈ pre ++ hexFlag fmt :: post then []
       else [bannerText, "Using serial port: " ++ portOf host v ++ "\n"])
      ++ printed Stmt.rom (main host drv (pre ++ hexFlag fmt :: post) rest).trace ∧
    (main host drv (pre ++ hexFlag fmt :: post) rest).status = 0 := by
  obtain ⟨ha, -, -, hjm, hvb⟩ := resolve_vars host _ rest v hres
  have hany : (pre ++ hexFlag fmt :: post).any Opt.isHex = true := by
    simp [List.any_append, hexFlag_isHex]
  have ha2 : v.action = Action.READ_ROM := by rw [ha]; simp [orderedAction, hany]
  have hfmt := resolve_hex_format host pre post fmt rest v hlast hres
  have hj0 : ¬ v.json_mode > 0 := by rw [hjm]; simp [hj]
  have hh : v.action ≠ Action.HELP := by rw [ha2]; decide
  have hr : reachesOpen host v := by
    refine ⟨fun h => hj0 h.1, hh, fun h => ?_⟩
    rcases hI with e | e
    · rw [h.1] at e; exact absurd e (by simp)
    · exact absurd h.2 (by omega)
  have hv : ¬ drv.is_fd_valid (portOf host v) = false := by simp [hvalid]
  have hvo := verboseOf_eq v hh hj0
  obtain ⟨r1, r2⟩ := romCase_texts host drv { v with verbose := verboseOf v } fmt ha2 hfmt
    hrom hbytes
  have hp := execute_printed host drv v Stmt.rom hr (by decide) (by decide)
  rw [if_neg hv, r2, r1] at hp
  have hs := (execute_streams host drv v hr).1
  rw [if_neg hv, r1] at hs
  have hst := (execute_steps host drv v hr).2
  rw [if_neg hv, (switch_rom host drv { v with verbose := verboseOf v } ha2).2,
    if_neg hrom] at hst
  rw [main_of_resolve host drv _ rest v hres]
  refine ⟨hp, ?_, ?_, hst⟩
  · rw [hp, join_wrap]
  · rw [hs, hp, hvo, hvb]
    by_cases hq : Opt.q ∈ pre ++ hexFlag fmt :: post
    · simp [hq]
    · simp [hq]

/-- C11 (witness): the bytes 0x28, 0x0A, 0xFF print as 280aff under -r and as
280AFF under -R, and the last of -r and -R decides the case. -/
theorem rom_rendering_witness :
    String.join (printed Stmt.rom (main threeByteHost goodDriver [Opt.q, Opt.r] []).trace)
      = "ROM: 280aff\n" ∧
    String.join (printed Stmt.rom (main threeByteHost goodDriver [Opt.r, Opt.R] []).trace)
      = "ROM: 280AFF\n" ∧
    stdoutTexts (main threeByteHost goodDriver [Opt.q, Opt.r] []).trace
      = ["ROM: ", "28", "0a", "ff", "\n"] := by
  have h1 := rom_rendering threeByteHost goodDriver [Opt.q] [] HexFormat.hex_lower []
    (afterLoop { verbose := 0, hex_format := some HexFormat.hex_lower } [])
    (by decide) (by decide) (by decide) (by decide) (by decide) (by decide) (by decide)
  have h2 := rom_rendering threeByteHost goodDriver [Opt.r] [] HexFormat.hex_upper []
    (afterLoop { hex_format := some HexFormat.hex_upper } [])
    (by decide) (by decide) (by decide) (by decide) (by decide) (by decide) (by decide)
  refine ⟨?_, ?_, ?_⟩
  · rw [show [Opt.q, Opt.r] = [Opt.q] ++ hexFlag HexFormat.hex_lower :: [] from rfl, h1.2.1]
    decide
  · rw [show [Opt.r, Opt.R] = [Opt.r] ++ hexFlag HexFormat.hex_upper :: [] from rfl, h2.2.1]
    decide
  · rw [show [Opt.q, Opt.r] = [Opt.q] ++ hexFlag HexFormat.hex_lower :: [] from rfl,
      h1.2.2.1, h1.1]
    decide

/-- C12: for every timestamp text t and every reading whose two-decimal
rendering is x, the temperature line of a JSON run is the object with the fields
time and temp_c or temp_f (the unit character plus 32), and the line of a plain
run is "t Sensor C: x" or "t Sensor F: x". -/
theorem temperature_line (host : Host) (drv : Driver) (opts : List Opt)
    (rest : List String) (v : Vars) (port t x : String)
    (hres : resolve host opts rest = some v) (ha : v.action = Action.ACQUIRE_TEMP)
    (hopen : Call.DS18B20_open port ∈ driverCalls (main host drv opts rest).trace)
    (hvalid : drv.is_fd_valid port = true)
    (hm : ¬ drv.measure < 0) (hq : ¬ drv.acquire < 0)
    (ht : timebuf host v = t)
    (hx : host.fmt_2f (convert v.units drv.temperature) = x) :
    Char.ofNat (v.units.toNat + 32) = (if Opt.f ∈ opts then 'f' else 'c') ∧
    (Opt.j ∈ opts →
      printed Stmt.temperature (main host drv opts rest).trace =
        ["\x7b \"time\": \"" ++ t ++ "\", \"temp_" ++ (if Opt.f ∈ opts then "f" else "c")
          ++ "\": " ++ x ++ " \x7d\n"]) ∧
    (Opt.j ∉ opts →
      printed Stmt.temperature (main host drv opts rest).trace =
        [t ++ " Sensor " ++ (if Opt.f ∈ opts then "F" else "C") ++ ": " ++ x ++ "\n"]) := by
  rw [main_of_resolve host drv opts rest v hres] at hopen ⊢
  obtain ⟨hr, hport⟩ := open_mem_calls host drv v port hopen
  subst hport
  obtain ⟨-, hu, -, hjm, -⟩ := resolve_vars host opts rest v hres
  rw [acquire_printed host drv v hr ha hvalid hm hq]
  unfold temperatureText
  rw [ht, hx, hjm, hu]
  by_cases hf : Opt.f ∈ opts
  · refine ⟨by simp only [hf, if_true]; decide, fun hj => ?_, fun hj => ?_⟩
    · simp only [hj, hf, if_true]
      have e : String.singleton (Char.ofNat ('F'.toNat + 32)) = "f" := by decide
      rw [if_pos (by decide), e]
    · simp only [hj, hf, if_true, if_false]
      rw [if_neg (by decide)]
      rfl
  · refine ⟨by simp only [hf, if_false]; decide, fun hj => ?_, fun hj => ?_⟩
    · simp only [hj, hf, if_true, if_false]
      have e : String.singleton (Char.ofNat ('C'.toNat + 32)) = "c" := by decide
      rw [if_pos (by decide), e]
    · simp only [hj, hf, if_false]
      rw [if_neg (by decide)]
      rfl

/-- C12 (witness): the timestamp 2024-01-01T00:00:00Z and the rendering 21.50 of
a Celsius reading under -i -j. -/
theorem temperature_line_witness :
    printed Stmt.temperature (main sampleHost goodDriver [Opt.i, Opt.j] []).trace =
      ["\x7b \"time\": \"2024-01-01T00:00:00Z\", \"temp_c\": 21.50 \x7d\n"] :=
  (temperature_line sampleHost goodDriver [Opt.i, Opt.j] []
    (afterLoop { psuedo_iso_8601_mode := 1, json_mode := 1 } []) "/dev/ttyUSB0"
    "2024-01-01T00:00:00Z" "21.50"
    (by decide) (by decide) (by decide) (by decide) (by decide) (by decide)
    (by decide) (by decide)).2.1 (by decide)

/-! ## Messages, help and the port (lines 84-86, 105-138, 201-208) -/

/-- C14 (counterexample): -p 8 -q writes nothing to the error stream, and -p 8
on a driver that cannot open the port writes only the driver's error text. -/
theorem quiet_precision_error_is_silent :
    (resolve sampleHost [Opt.p "8", Opt.q] []).map Vars.action = some Action.SET ∧
    (resolve sampleHost [Opt.p "8", Opt.q] []).map Vars.precision = some 8 ∧
    stderrTexts (main sampleHost goodDriver [Opt.p "8", Opt.q] []).trace = [] ∧
    (main sampleHost goodDriver [Opt.p "8", Opt.q] []).status = 1 ∧
    stderrTexts (main sampleHost noOpenDriver [Opt.p "8"] []).trace = ["driver error\n"] :=
  ⟨by decide, by decide, by decide, by decide, by decide⟩

/-- C14 (amended): for every SetPrecision run with a requested precision outside
[9,12] that passes the JSON and -I guards and whose open succeeds, the
validation message is the one text written to the error stream when quiet mode
(-q) was not selected, and nothing is written to it when -q was selected. -/
theorem precision_message_unless_quiet (host : Host) (drv : Driver) (opts : List Opt)
    (rest : List String) (v : Vars) (hres : resolve host opts rest = some v)
    (ha : v.action = Action.SET) (hp : v.precision < 9 ∨ 12 < v.precision)
    (hj : Opt.j ∉ opts)
    (hI : ¬ (host.SUPPORT_OPT_I = false ∧ v.psuedo_iso_8601_mode > 1))
    (hvalid : drv.is_fd_valid (portOf host v) = true) :
    stderrTexts (main host drv opts rest).trace =
      (if Opt.q ∈ opts then [] else ["Probe precision out of range!\n"]) := by
  obtain ⟨-, -, -, hjm, hvb⟩ := resolve_vars host opts rest v hres
  have hj0 : ¬ v.json_mode > 0 := by rw [hjm]; simp [hj]
  have hh : v.action ≠ Action.HELP := by rw [ha]; decide
  have hr : reachesOpen host v := ⟨fun h => hj0 h.1, hh, hI⟩
  have hv : ¬ drv.is_fd_valid (portOf host v) = false := by simp [hvalid]
  have ha2 : ({ v with verbose := verboseOf v } : Vars).action = Action.SET := ha
  have hp2 : ({ v with verbose := verboseOf v } : Vars).precision < 9 ∨
      12 < ({ v with verbose := verboseOf v } : Vars).precision := hp
  have hs := setCase_stderr host drv { v with verbose := verboseOf v } ha2 hp2
  have hvo : ({ v with verbose := verboseOf v } : Vars).verbose = v.verbose :=
    verboseOf_eq v hh hj0
  rw [hvo, hvb] at hs
  rw [main_of_resolve host drv opts rest v hres, (execute_streams host drv v hr).2,
    if_neg hv, hs]
  by_cases hq : Opt.q ∈ opts
  · simp [hq]
  · simp [hq]

/-- C14 (witness): -p 13 without -q. -/
theorem precision_message_unless_quiet_witness :
    stderrTexts (main sampleHost goodDriver [Opt.p "13"] []).trace =
      (if Opt.q ∈ [Opt.p "13"] then [] else ["Probe precision out of range!\n"]) :=
  precision_message_unless_quiet sampleHost goodDriver [Opt.p "13"] []
    (afterLoop { action := Action.SET, precision := 13 } [])
    (by decide) (by decide) (by decide) (by decide) (by decide) (by decide)

/-- C15: for every run whose resolved action is Help and in which JSON was not
requested, standard output is the banner (also under -q) followed by the seven
lines of the option summary, nothing else happens (no driver call, no wait, no
text on the error stream), and the run returns 0. -/
theorem help_run (host : Host) (drv : Driver) (opts : List Opt) (rest : List String)
    (v : Vars) (hres : resolve host opts rest = some v) (ha : v.action = Action.HELP)
    (hj : Opt.j ∉ opts) :
    stdoutTexts (main host drv opts rest).trace =
      ["USB Thermometer CLI v1.07 Copyright 2024 usbtemp.com et al. Licensed under MIT licence.\n",
       "\t-f\tDisplay temperature using the Fahrenheit scale\n",
       "\t-i\tFormat date as UTC ISO 8601\n",
       "\t-j\tFormat date and temperature as JSON\n",
       "\t-p\tSet probe precision \x7b9,10,11,12\x7d\n",
       "\t-q\tQuiet mode\n",
       "\t-r\tGet probe serial number (ROM) in hexadecimal, or -R in uppercase hexadecimal\n",
       "\t-s\tSet serial port\n"] ∧
    printed Stmt.banner (main host drv opts rest).trace =
      ["USB Thermometer CLI v1.07 Copyright 2024 usbtemp.com et al. Licensed under MIT licence.\n"] ∧
    (printed Stmt.help (main host drv opts rest).trace).length = 7 ∧
    (main host drv opts rest).trace.length = 8 ∧
    (main host drv opts rest).status = 0 ∧
    stderrTexts (main host drv opts rest).trace = [] ∧
    driverCalls (main host drv opts rest).trace = [] ∧
    deviceSteps (main host drv opts rest).trace = [] := by
  obtain ⟨-, -, -, hjm, -⟩ := resolve_vars host opts rest v hres
  have hj0 : ¬ v.json_mode > 0 := by rw [hjm]; simp [hj]
  have hm : main host drv opts rest =
      { status := 0, trace := Event.stdout Stmt.banner bannerText :: helpEvents } := by
    rw [main_of_resolve host drv opts rest v hres]
    unfold execute
    rw [if_neg (fun h => hj0 h.1)]
    simp [ha]
  rw [hm]
  refine ⟨by decide, by decide, by decide, by decide, rfl, by decide, by decide, by decide⟩

/-- C15 (witness): -q -h prints the banner and the summary and returns 0, on a
driver that could not even open the port. -/
theorem help_run_witness :
    stdoutTexts (main sampleHost noOpenDriver [Opt.q, Opt.h] []).trace =
      ["USB Thermometer CLI v1.07 Copyright 2024 usbtemp.com et al. Licensed under MIT licence.\n",
       "\t-f\tDisplay temperature using the Fahrenheit scale\n",
       "\t-i\tFormat date as UTC ISO 8601\n",
       "\t-j\tFormat date and temperature as JSON\n",
       "\t-p\tSet probe precision \x7b9,10,11,12\x7d\n",
       "\t-q\tQuiet mode\n",
       "\t-r\tGet probe serial number (ROM) in hexadecimal, or -R in uppercase hexadecimal\n",
       "\t-s\tSet serial port\n"] ∧
    (main sampleHost noOpenDriver [Opt.q, Opt.h] []).status = 0 ∧
    driverCalls (main sampleHost noOpenDriver [Opt.q, Opt.h] []).trace = [] :=
  have h := help_run sampleHost noOpenDriver [Opt.q, Opt.h] []
    (afterLoop { verbose := 0, action := Action.HELP } [])
    (by decide) (by decide) (by decide)
  ⟨h.1, h.2.2.2.2.1, h.2.2.2.2.2.2.1⟩

/-- C16: the port passed to the open call is the first argument left after the
options when there is one (also when -s was given), otherwise the argument of
the last -s when there is one, otherwise the default port of the platform. -/
theorem open_port_selection (host : Host) (drv : Driver) (opts : List Opt)
    (rest : List String) (port : String)
    (hopen : Call.DS18B20_open port ∈ driverCalls (main host drv opts rest).trace) :
    (∀ a as, rest = a :: as → port = a) ∧
    (rest = [] → ∀ pre post x, opts = pre ++ Opt.s x :: post → post.any Opt.isS = false →
      port = x) ∧
    (rest = [] → opts.any Opt.isS = false → port = host.DEFAULT_SERIAL_PORT) := by
  obtain ⟨v, hres⟩ := resolved_of_call host drv opts rest _ hopen
  rw [main_of_resolve host drv opts rest v hres] at hopen
  obtain ⟨-, hport⟩ := open_mem_calls host drv v port hopen
  obtain ⟨p1, p2, p3⟩ := resolve_serial_port host opts rest v hres
  subst hport
  refine ⟨fun a as hr => ?_, fun hr pre post x ho hp => ?_, fun hr hp => ?_⟩
  · unfold portOf; rw [p1 a as hr]
  · unfold portOf; rw [p2 hr pre post x ho hp]
  · unfold portOf; rw [p3 hr hp]

/-- C16 (witness): a positional COM3 wins over -s COM1, the last -s wins without
one, and the default port is used without either. -/
theorem open_port_selection_witness :
    Call.DS18B20_open "COM3" ∈
      driverCalls (main sampleHost goodDriver [Opt.s "COM1"] ["COM3"]).trace ∧
    Call.DS18B20_open "/dev/ttyUSB0" ∈
      driverCalls (main sampleHost goodDriver [Opt.q] []).trace ∧
    Call.DS18B20_open "COM2" ∈
      driverCalls (main sampleHost goodDriver [Opt.s "COM1", Opt.s "COM2", Opt.q] []).trace ∧
    (∀ pre post x, [Opt.s "COM1", Opt.s "COM2", Opt.q] = pre ++ Opt.s x :: post →
      post.any Opt.isS = false → "COM2" = x) :=
  ⟨by decide, by decide, by decide,
   (open_port_selection sampleHost goodDriver [Opt.s "COM1", Opt.s "COM2", Opt.q] [] "COM2"
     (by decide)).2.1 rfl⟩

/-- C17 (counterexample): on a host without SUPPORT_OPT_I, -I with -h returns 0
and -I with -j -r returns 1; neither returns -2. -/
theorem extended_style_not_always_rejected :
    plainHost.SUPPORT_OPT_I = false ∧
    (resolve plainHost [Opt.I, Opt.h] []).map Vars.psuedo_iso_8601_mode = some 2 ∧
    (main plainHost goodDriver [Opt.I, Opt.h] []).status = 0 ∧
    (resolve plainHost [Opt.I, Opt.j, Opt.r] []).map Vars.psuedo_iso_8601_mode = some 2 ∧
    (main plainHost goodDriver [Opt.I, Opt.j, Opt.r] []).status = 1 :=
  ⟨by decide, by decide, by decide, by decide, by decide⟩

/-- C17 (amended): on a host without SUPPORT_OPT_I, every run in which the
extended UTC style is the selected one (a -I with no -i or -I after it) issues
no driver call; it ends with the exit code -2 whatever other flags are supplied,
except that a resolved action Help without -j ends with 0 and JSON with a
resolved action other than AcquireTemperature ends with 1, both decided first. -/
theorem extended_style_unsupported (host : Host) (drv : Driver) (pre post : List Opt)
    (rest : List String) (v : Vars) (hs : host.SUPPORT_OPT_I = false)
    (hres : resolve host (pre ++ Opt.I :: post) rest = some v)
    (hlast : post.any Opt.isTime = false) :
    driverCalls (main host drv (pre ++ Opt.I :: post) rest).trace = [] ∧
    (v.action ≠ Action.HELP →
      (Opt.j ∈ pre ++ Opt.I :: post → v.action = Action.ACQUIRE_TEMP) →
      (main host drv (pre ++ Opt.I :: post) rest).status = -2) ∧
    (v.action = Action.HELP → Opt.j ∉ pre ++ Opt.I :: post →
      (main host drv (pre ++ Opt.I :: post) rest).status = 0) ∧
    (Opt.j ∈ pre ++ Opt.I :: post → v.action ≠ Action.ACQUIRE_TEMP →
      (main host drv (pre ++ Opt.I :: post) rest).status = 1) := by
  have hmode := resolve_mode_extended host pre post rest v hlast hres
  obtain ⟨-, -, -, hjm, -⟩ := resolve_vars host _ rest v hres
  have hnr : ¬ reachesOpen host v := fun h => h.2.2 ⟨hs, by rw [hmode]; decide⟩
  rw [main_of_resolve host drv _ rest v hres]
  refine ⟨(execute_not_reaching host drv v hnr).2, fun hh hj => ?_, fun hh hj => ?_,
    fun hj ha => ?_⟩
  · refine execute_unsupported host drv v (fun h => ?_) hh hs (by rw [hmode]; decide)
    have hjin : Opt.j ∈ pre ++ Opt.I :: post := by
      by_contra hn
      rw [hjm, if_neg hn] at h
      exact absurd h.1 (by decide)
    exact h.2 (hj hjin)
  · have hj0 : ¬ v.json_mode > 0 := by rw [hjm]; simp [hj]
    unfold execute
    rw [if_neg (fun h => hj0 h.1)]
    simp [hh]
  · have hj1 : v.json_mode > 0 := by rw [hjm]; simp [hj]
    rw [execute_json_conflict host drv v hj1 ha]

/-- C17 (witness): -q -I -f on a host without SUPPORT_OPT_I. -/
theorem extended_style_unsupported_witness :
    driverCalls (main plainHost goodDriver ([Opt.q] ++ Opt.I :: [Opt.f]) []).trace = [] ∧
    (main plainHost goodDriver ([Opt.q] ++ Opt.I :: [Opt.f]) []).status = -2 :=
  have h := extended_style_unsupported plainHost goodDriver [Opt.q] [Opt.f] []
    (afterLoop { verbose := 0, psuedo_iso_8601_mode := 2, units := 'F' } [])
    (by decide) (by decide) (by decide)
  ⟨h.1, h.2.1 (by decide) (by decide)⟩

/-- C18: for every flag sequence the option parser accepts, the action main
dispatches on is ReadRom if a hex-case flag is present, otherwise
AcquireTemperature if -f is present, otherwise the action of the last of -h and
-p, otherwise AcquireTemperature; so a hex-case flag beats -f and -h, -f beats
-h, and -h against -p is decided by their order. -/
theorem dispatched_action (host : Host) (opts : List Opt) (rest : List String)
    (hacc : Opt.unknown ∉ opts) :
    ∃ v, resolve host opts rest = some v ∧
      v.action = dispatchedAction opts ∧
      (opts.any Opt.isHex = true → v.action = Action.READ_ROM) ∧
      (opts.any Opt.isHex = false → Opt.f ∈ opts → v.action = Action.ACQUIRE_TEMP) ∧
      (opts.any Opt.isHex = false → Opt.f ∉ opts →
        (∀ pre post, opts = pre ++ Opt.h :: post → post.any Opt.isHelpOrP = false →
          v.action = Action.HELP) ∧
        (∀ pre post x, opts = pre ++ Opt.p x :: post → post.any Opt.isHelpOrP = false →
          v.action = Action.SET) ∧
        (opts.any Opt.isHelpOrP = false → v.action = Action.ACQUIRE_TEMP)) := by
  obtain ⟨v, hv⟩ := resolve_accepts host opts rest hacc
  have ha : v.action = dispatchedAction opts := by
    rw [(resolve_vars host opts rest v hv).1]
    unfold orderedAction dispatchedAction
    rw [lastHelpOrSet_eq_last]
  have hnone : ∀ l : List Opt, l.any Opt.isHelpOrP = false → l.filter Opt.isHelpOrP = [] := by
    intro l hl
    rw [List.filter_eq_nil_iff]
    intro a hmem
    have := List.any_eq_false.mp hl a hmem
    simpa using this
  refine ⟨v, hv, ha, fun hx => ?_, fun hx hf => ?_, fun hx hf => ⟨?_, ?_, ?_⟩⟩
  · rw [ha]; simp [dispatchedAction, hx]
  · rw [ha]; simp [dispatchedAction, hx, hf]
  · intro pre post ho hp
    rw [ha, ho]
    unfold dispatchedAction
    rw [← ho, hx]
    simp only [Bool.false_eq_true, if_false, hf]
    rw [ho]
    simp [lastHelpOrPrecision, List.filter_append, List.filter_cons, Opt.isHelpOrP, hnone post hp]
  · intro pre post x ho hp
    rw [ha, ho]
    unfold dispatchedAction
    rw [← ho, hx]
    simp only [Bool.false_eq_true, if_false, hf]
    rw [ho]
    simp [lastHelpOrPrecision, List.filter_append, List.filter_cons, Opt.isHelpOrP, hnone post hp]
  · intro hp
    rw [ha]
    simp [dispatchedAction, hx, hf, lastHelpOrPrecision, hnone opts hp]

/-- C18 (witness): -f -h -r dispatches ReadRom, -h -f AcquireTemperature,
-h -p 10 SetPrecision and -p 10 -h Help. -/
theorem dispatched_action_witness :
    (∃ v, resolve sampleHost [Opt.f, Opt.h, Opt.r] [] = some v ∧
      v.action = Action.READ_ROM) ∧
    (∃ v, resolve sampleHost [Opt.h, Opt.f] [] = some v ∧
      v.action = Action.ACQUIRE_TEMP) ∧
    (∃ v, resolve sampleHost [Opt.h, Opt.p "10"] [] = some v ∧ v.action = Action.SET) ∧
    (∃ v, resolve sampleHost [Opt.p "10", Opt.h] [] = some v ∧ v.action = Action.HELP) := by
  obtain ⟨v1, r1, -, a1, -⟩ := dispatched_action sampleHost [Opt.f, Opt.h, Opt.r] [] (by decide)
  obtain ⟨v2, r2, -, -, a2, -⟩ := dispatched_action sampleHost [Opt.h, Opt.f] [] (by decide)
  obtain ⟨v3, r3, -, -, -, a3⟩ := dispatched_action sampleHost [Opt.h, Opt.p "10"] [] (by decide)
  obtain ⟨v4, r4, -, -, -, a4⟩ := dispatched_action sampleHost [Opt.p "10", Opt.h] [] (by decide)
  exact ⟨⟨v1, r1, a1 (by decide)⟩, ⟨v2, r2, a2 (by decide) (by decide)⟩,
    ⟨v3, r3, (a3 (by decide) (by decide)).2.1 [Opt.h] [] "10" rfl (by decide)⟩,
    ⟨v4, r4, (a4 (by decide) (by decide)).1 [Opt.p "10"] [] rfl (by decide)⟩⟩

/-- C19: for every run in which JSON (-j) is requested, with or without -q,
standard output holds no banner, no port line and no waiting notice: it is the
one JSON line when the action is AcquireTemperature, the -I guard passes and the
open, measure and acquire calls all succeed, and it is empty in every other
case, in particular when a driver call fails. -/
theorem json_stdout (host : Host) (drv : Driver) (opts : List Opt) (rest : List String)
    (v : Vars) (hres : resolve host opts rest = some v) (hj : Opt.j ∈ opts) :
    stdoutTexts (main host drv opts rest).trace =
      (if v.action = Action.ACQUIRE_TEMP ∧
          ¬ (host.SUPPORT_OPT_I = false ∧ v.psuedo_iso_8601_mode > 1) ∧
          drv.is_fd_valid (portOf host v) = true ∧ ¬ drv.measure < 0 ∧ ¬ drv.acquire < 0
       then
        ["\x7b \"time\": \"" ++ timebuf host v ++ "\", \"temp_"
          ++ String.singleton (Char.ofNat (v.units.toNat + 32)) ++ "\": "
          ++ host.fmt_2f (convert v.units drv.temperature) ++ " \x7d\n"]
       else []) := by
  obtain ⟨-, -, -, hjm, -⟩ := resolve_vars host opts rest v hres
  have hj1 : v.json_mode > 0 := by rw [hjm]; simp [hj]
  rw [main_of_resolve host drv opts rest v hres]
  by_cases ha : v.action = Action.ACQUIRE_TEMP
  · have hh : v.action ≠ Action.HELP := by rw [ha]; decide
    have hvo : verboseOf v = 0 := by unfold verboseOf; rw [if_neg hh, if_pos hj1]
    by_cases hI : host.SUPPORT_OPT_I = false ∧ v.psuedo_iso_8601_mode > 1
    · rw [if_neg (fun h => h.2.1 hI)]
      unfold execute
      rw [if_neg (fun h => h.2 ha)]
      simp only [hh, if_false]
      rw [if_pos hI, if_pos hj1]
      simp [stdoutTexts, Event.outText]
    · have hr : reachesOpen host v := ⟨fun h => h.2 ha, hh, hI⟩
      rw [(execute_streams host drv v hr).1, hvo]
      have ha2 : ({ v with verbose := 0 } : Vars).action = Action.ACQUIRE_TEMP := ha
      rw [acquireCase_stdout_quiet host drv { v with verbose := 0 } ha2 rfl]
      have htext : temperatureText host { v with verbose := 0 }
          (convert ({ v with verbose := 0 } : Vars).units drv.temperature) =
          "\x7b \"time\": \"" ++ timebuf host v ++ "\", \"temp_"
            ++ String.singleton (Char.ofNat (v.units.toNat + 32)) ++ "\": "
            ++ host.fmt_2f (convert v.units drv.temperature) ++ " \x7d\n" := by
        unfold temperatureText
        rw [if_pos (show ({ v with verbose := 0 } : Vars).json_mode > 0 from hj1)]
        rfl
      rw [htext]
      by_cases hv : drv.is_fd_valid (portOf host v) = true
      · by_cases hm : drv.measure < 0
        · simp [hv, hm]
        · by_cases hq : drv.acquire < 0
          · simp [hv, hm, hq]
          · simp [ha, hI, hv, hm, hq]
      · have hv2 : drv.is_fd_valid (portOf host v) = false := by simpa using hv
        simp [hv2]
  · rw [if_neg (fun h => ha h.1), execute_json_conflict host drv v hj1 ha]
    simp [stdoutTexts, Event.outText]

/-- C19 (witness): -j without and with -q prints the one JSON line, and -j on a
driver whose acquire call fails prints nothing. -/
theorem json_stdout_witness :
    stdoutTexts (main sampleHost goodDriver [Opt.j] []).trace =
      ["\x7b \"time\": \"Jan 01 00:00:00\", \"temp_c\": 21.50 \x7d\n"] ∧
    stdoutTexts (main sampleHost goodDriver [Opt.q, Opt.j] []).trace =
      ["\x7b \"time\": \"Jan 01 00:00:00\", \"temp_c\": 21.50 \x7d\n"] ∧
    stdoutTexts (main sampleHost { goodDriver with acquire := -1 } [Opt.j] []).trace = [] := by
  have h1 := json_stdout sampleHost goodDriver [Opt.j] []
    (afterLoop { json_mode := 1 } []) (by decide) (by decide)
  have h2 := json_stdout sampleHost goodDriver [Opt.q, Opt.j] []
    (afterLoop { verbose := 0, json_mode := 1 } []) (by decide) (by decide)
  have h3 := json_stdout sampleHost { goodDriver with acquire := -1 } [Opt.j] []
    (afterLoop { json_mode := 1 } []) (by decide) (by decide)
  refine ⟨?_, ?_, ?_⟩
  · rw [h1]; decide
  · rw [h2]; decide
  · rw [h3]; decide

/-! ## The Fahrenheit value (lines 176-178) -/

/-- C13 (counterexample): the reading 0.125 is a float, and under -f the value
passed on for rendering is 4223795/131072 (about 32.2249985), not
9*0.125/5 + 32 = 1289/40 = 32.225. -/
theorem fahrenheit_inexact_at_eighth :
    (resolve sampleHost [Opt.f] []).map Vars.units = some 'F' ∧
    isBinary32 (1 / 8) ∧
    convert 'F' (1 / 8) = 4223795 / 131072 ∧
    exactFahrenheit (1 / 8) = 1289 / 40 ∧
    convert 'F' (1 / 8) ≠ exactFahrenheit (1 / 8) := by
  refine ⟨by decide, ⟨1, -3, by norm_num, by norm_num, by norm_num, by norm_num⟩,
    convert_eighth, by norm_num [exactFahrenheit], ?_⟩
  rw [convert_eighth]
  norm_num [exactFahrenheit]

/-- C13 (amended): for every Celsius reading C returned by acquire, the value
rendered is C unchanged when the unit is Celsius, and when the unit is
Fahrenheit it is the float result of (9*C)/5 + 32, each of the three operations
rounded to the nearest float; that result is exactly 9*C/5 + 32 whenever 9*C,
9*C/5 and 9*C/5 + 32 are themselves float values (C = 0 gives 32 and C = 100
gives 212), and it can only be exact when 9*C/5 + 32 is an integer times a power
of two. -/
theorem fahrenheit_value (host : Host) (drv : Driver) (opts : List Opt)
    (rest : List String) (v : Vars) (hres : resolve host opts rest = some v) :
    (∀ port, v.action = Action.ACQUIRE_TEMP →
      Call.DS18B20_open port ∈ driverCalls (main host drv opts rest).trace →
      drv.is_fd_valid port = true → ¬ drv.measure < 0 → ¬ drv.acquire < 0 →
      printed Stmt.temperature (main host drv opts rest).trace =
        [temperatureText host v (convert v.units drv.temperature)]) ∧
    (Opt.f ∉ opts → convert v.units drv.temperature = drv.temperature) ∧
    (Opt.f ∈ opts → convert v.units drv.temperature =
      roundFloat (roundFloat (roundFloat (9 * drv.temperature) / 5) + 32)) ∧
    (Opt.f ∈ opts → isBinary32 (9 * drv.temperature) → isBinary32 (9 * drv.temperature / 5) →
      isBinary32 (exactFahrenheit drv.temperature) →
      convert v.units drv.temperature = exactFahrenheit drv.temperature) ∧
    (Opt.f ∈ opts → drv.temperature = 0 → convert v.units drv.temperature = 32) ∧
    (Opt.f ∈ opts → drv.temperature = 100 → convert v.units drv.temperature = 212) ∧
    (Opt.f ∈ opts → convert v.units drv.temperature = exactFahrenheit drv.temperature →
      ∃ m e : ℤ, exactFahrenheit drv.temperature = (m : ℚ) * (2 : ℚ) ^ e) := by
  have hu := (resolve_vars host opts rest v hres).2.1
  refine ⟨?_, ?_, ?_, ?_, ?_, ?_, ?_⟩
  · intro port ha hopen hvalid hm hq
    rw [main_of_resolve host drv opts rest v hres] at hopen ⊢
    obtain ⟨hr, hport⟩ := open_mem_calls host drv v port hopen
    subst hport
    exact acquire_printed host drv v hr ha hvalid hm hq
  · intro hf
    rw [hu, if_neg hf]
    unfold convert
    rw [if_neg (by decide)]
  · intro hf
    rw [hu, if_pos hf]
    unfold convert
    rw [if_pos rfl]
  · intro hf h1 h2 h3
    rw [hu, if_pos hf]
    exact convert_exact _ h1 h2 h3
  · intro hf h0
    rw [hu, if_pos hf, h0]
    have e := convert_exact 0
      ⟨0, 0, by norm_num, by norm_num, by norm_num, by norm_num⟩
      ⟨0, 0, by norm_num, by norm_num, by norm_num, by norm_num⟩
      ⟨32, 0, by norm_num, by norm_num, by norm_num, by norm_num [exactFahrenheit]⟩
    rw [e]
    norm_num [exactFahrenheit]
  · intro hf h100
    rw [hu, if_pos hf, h100]
    have e := convert_exact 100
      ⟨900, 0, by norm_num, by norm_num, by norm_num, by norm_num⟩
      ⟨180, 0, by norm_num, by norm_num, by norm_num, by norm_num⟩
      ⟨212, 0, by norm_num, by norm_num, by norm_num, by norm_num [exactFahrenheit]⟩
    rw [e]
    norm_num [exactFahrenheit]
  · intro hf he
    rw [← he, hu, if_pos hf]
    unfold convert
    rw [if_pos rfl]
    exact ⟨_, _, rfl⟩

/-- C13 (witness): under -f the reading 100 is rendered as 212 and the reading 0
as 32, and without -f the reading 100 stays 100. -/
theorem fahrenheit_value_witness :
    convert 'F' 100 = 212 ∧ convert 'F' 0 = 32 ∧ convert 'C' 100 = 100 :=
  ⟨(fahrenheit_value sampleHost { goodDriver with temperature := 100 } [Opt.f] []
      (afterLoop { units := 'F' } []) (by decide)).2.2.2.2.2.1 (by decide) rfl,
   (fahrenheit_value sampleHost { goodDriver with temperature := 0 } [Opt.f] []
      (afterLoop { units := 'F' } []) (by decide)).2.2.2.2.1 (by decide) rfl,
   (fahrenheit_value sampleHost { goodDriver with temperature := 100 } [] []
      (afterLoop {} []) (by decide)).2.1 (by decide)⟩

end Utmp
